import Mathlib

/-!
Verification of `btu/btu_api/scheduler.py` (the BTU scheduler messaging layer).

This file is a shallow embedding of the two components of that module:

* the blocking request client `SchedulerAPI` (`send_ping`, `send_message`,
  `_send_message_to_scheduler_socket`), modelled as a pure function over an
  environment describing the outcomes of the socket operations, together
  with a trace of the socket events it performs; and

* the `Message` connection state machine (the reference implementation kept
  at the bottom of the module), modelled as explicit state passing over a
  record holding the receive/send buffers, the parsed header fields and the
  selector registration.

Python byte strings are `List Nat` (each entry a byte value), Python
`str` values are Lean `String`/`List Char`, JSON values are the inductive
`Json` below, and raised Python exceptions are `Except` errors.  The
`json.dumps` / `json.load` pair used by `Message._json_encode` /
`Message._json_decode` is embedded as an executable serializer `dumpVal`
and an executable fuelled parser `parseF`, and we prove the round trip
between them that the protocol layer relies on.
-/

namespace BTUVerify

/-- JSON values, as produced/consumed by the `json` module calls in the
source.  Numbers are restricted to integers: every number the module ever
serializes (the `content-length` header field) or compares is an integer,
and Python renders integers in plain decimal exactly as modelled here. -/
inductive Json where
  | null : Json
  | bool (b : Bool) : Json
  | num (n : Int) : Json
  | str (s : String) : Json
  | arr (xs : List Json) : Json
  | obj (kvs : List (String × Json)) : Json

/-! ### UTF-8, modelling Python `str.encode("utf-8")` and strict decoding -/

/-- The UTF-8 encoding of a single code point (`str.encode` emits exactly
these byte sequences; Lean `Char` excludes surrogates, as does a Python
`str` that is encodable). -/
def utf8EncodeChar (c : Char) : List Nat :=
  let n := c.toNat
  if n < 128 then [n]
  else if n < 2048 then [192 + n / 64, 128 + n % 64]
  else if n < 65536 then [224 + n / 4096, 128 + n / 64 % 64, 128 + n % 64]
  else [240 + n / 262144, 128 + n / 4096 % 64, 128 + n / 64 % 64, 128 + n % 64]

/-- `str.encode("utf-8")` over a list of characters. -/
def utf8Encode : List Char → List Nat
  | [] => []
  | c :: cs => utf8EncodeChar c ++ utf8Encode cs

/-- One-byte-at-a-time strict UTF-8 decoding loop.  The state is `none`
between characters, and `some (need, acc, mn)` inside a multi-byte
sequence: `need` continuation bytes still expected, `acc` the accumulated
code point so far, `mn` the smallest legal value for the sequence (the
overlong check).  Surrogates and values above `0x10FFFF` are rejected,
exactly as CPython's strict `utf-8` codec does. -/
def utf8Run : Option (Nat × Nat × Nat) → List Nat → Option (List Char)
  | none, [] => some []
  | some _, [] => none
  | none, b :: bs =>
    if b < 128 then (utf8Run none bs).map (fun cs => Char.ofNat b :: cs)
    else if 194 ≤ b ∧ b < 224 then utf8Run (some (1, b - 192, 128)) bs
    else if 224 ≤ b ∧ b < 240 then utf8Run (some (2, b - 224, 2048)) bs
    else if 240 ≤ b ∧ b < 245 then utf8Run (some (3, b - 240, 65536)) bs
    else none
  | some (need, acc, mn), b :: bs =>
    if 128 ≤ b ∧ b < 192 then
      if need ≤ 1 then
        if mn ≤ acc * 64 + (b - 128) ∧
            (acc * 64 + (b - 128) < 55296 ∨ 57344 ≤ acc * 64 + (b - 128)) ∧
            acc * 64 + (b - 128) < 1114112 then
          (utf8Run none bs).map (fun cs => Char.ofNat (acc * 64 + (b - 128)) :: cs)
        else none
      else utf8Run (some (need - 1, acc * 64 + (b - 128), mn)) bs
    else none

/-- Strict UTF-8 decoding, modelling `bytes.decode("utf-8")`. -/
def utf8Decode (bs : List Nat) : Option (List Char) := utf8Run none bs

theorem char_toNat_lt (c : Char) : c.toNat < 1114112 := by
  have h := c.valid
  have h2 : c.toNat = c.val.toNat := rfl
  rcases h with h | ⟨h1, h3⟩ <;> omega

theorem char_toNat_not_surrogate (c : Char) : c.toNat < 55296 ∨ 57344 ≤ c.toNat := by
  have h := c.valid
  have h2 : c.toNat = c.val.toNat := rfl
  rcases h with h | ⟨h1, h3⟩
  · left; omega
  · right; omega

theorem toNat_ofNat_of_valid {n : Nat} (h : n.isValidChar) : (Char.ofNat n).toNat = n := by
  simp [Char.ofNat, h, Char.ofNatAux, Char.toNat, UInt32.toNat, BitVec.toNat_ofNatLt]

theorem toNat_ofNat_small {n : Nat} (h : n < 55296) : (Char.ofNat n).toNat = n :=
  toNat_ofNat_of_valid (Or.inl h)

theorem utf8DecodeChar_round (c : Char) (rest : List Nat) :
    utf8Run none (utf8EncodeChar c ++ rest) = (utf8Run none rest).map (fun cs => c :: cs) := by
  have hlt := char_toNat_lt c
  have hsur := char_toNat_not_surrogate c
  have hofn : Char.ofNat c.toNat = c := Char.ofNat_toNat c
  unfold utf8EncodeChar
  by_cases h1 : c.toNat < 128
  · rw [if_pos h1]
    simp only [List.cons_append, List.nil_append, utf8Run]
    rw [if_pos h1, hofn]
    simp
  · by_cases h2 : c.toNat < 2048
    · rw [if_neg h1, if_pos h2]
      simp only [List.cons_append, List.nil_append, utf8Run]
      have e1 : ¬ (192 + c.toNat / 64 < 128) := by omega
      have e2 : 194 ≤ 192 + c.toNat / 64 ∧ 192 + c.toNat / 64 < 224 := by omega
      rw [if_neg e1, if_pos e2]
      have e3 : 128 ≤ 128 + c.toNat % 64 ∧ 128 + c.toNat % 64 < 192 := by omega
      rw [if_pos e3, if_pos (by omega : (1:Nat) ≤ 1)]
      have e5 : 128 ≤ (192 + c.toNat / 64 - 192) * 64 + (128 + c.toNat % 64 - 128) ∧
          ((192 + c.toNat / 64 - 192) * 64 + (128 + c.toNat % 64 - 128) < 55296 ∨
           57344 ≤ (192 + c.toNat / 64 - 192) * 64 + (128 + c.toNat % 64 - 128)) ∧
          (192 + c.toNat / 64 - 192) * 64 + (128 + c.toNat % 64 - 128) < 1114112 := by omega
      rw [if_pos e5]
      have e4 : (192 + c.toNat / 64 - 192) * 64 + (128 + c.toNat % 64 - 128) = c.toNat := by omega
      rw [e4, hofn]
      simp
    · by_cases h3 : c.toNat < 65536
      · rw [if_neg h1, if_neg h2, if_pos h3]
        simp only [List.cons_append, List.nil_append, utf8Run]
        have e1 : ¬ (224 + c.toNat / 4096 < 128) := by omega
        have e2 : ¬ (194 ≤ 224 + c.toNat / 4096 ∧ 224 + c.toNat / 4096 < 224) := by omega
        have e3 : 224 ≤ 224 + c.toNat / 4096 ∧ 224 + c.toNat / 4096 < 240 := by omega
        rw [if_neg e1, if_neg e2, if_pos e3]
        have e4 : 128 ≤ 128 + c.toNat / 64 % 64 ∧ 128 + c.toNat / 64 % 64 < 192 := by omega
        rw [if_pos e4, if_neg (by omega : ¬ ((2:Nat) ≤ 1))]
        have e6 : 128 ≤ 128 + c.toNat % 64 ∧ 128 + c.toNat % 64 < 192 := by omega
        rw [if_pos e6, if_pos (by omega : 2 - 1 ≤ 1)]
        have e7 : 2048 ≤ ((224 + c.toNat / 4096 - 224) * 64 + (128 + c.toNat / 64 % 64 - 128)) * 64 +
              (128 + c.toNat % 64 - 128) ∧
            (((224 + c.toNat / 4096 - 224) * 64 + (128 + c.toNat / 64 % 64 - 128)) * 64 +
              (128 + c.toNat % 64 - 128) < 55296 ∨
             57344 ≤ ((224 + c.toNat / 4096 - 224) * 64 + (128 + c.toNat / 64 % 64 - 128)) * 64 +
              (128 + c.toNat % 64 - 128)) ∧
            ((224 + c.toNat / 4096 - 224) * 64 + (128 + c.toNat / 64 % 64 - 128)) * 64 +
              (128 + c.toNat % 64 - 128) < 1114112 := by omega
        rw [if_pos e7]
        have e8 : ((224 + c.toNat / 4096 - 224) * 64 + (128 + c.toNat / 64 % 64 - 128)) * 64 +
            (128 + c.toNat % 64 - 128) = c.toNat := by omega
        rw [e8, hofn]
        simp
      · rw [if_neg h1, if_neg h2, if_neg h3]
        simp only [List.cons_append, List.nil_append, utf8Run]
        have e1 : ¬ (240 + c.toNat / 262144 < 128) := by omega
        have e2 : ¬ (194 ≤ 240 + c.toNat / 262144 ∧ 240 + c.toNat / 262144 < 224) := by omega
        have e3 : ¬ (224 ≤ 240 + c.toNat / 262144 ∧ 240 + c.toNat / 262144 < 240) := by omega
        have e4 : 240 ≤ 240 + c.toNat / 262144 ∧ 240 + c.toNat / 262144 < 245 := by omega
        rw [if_neg e1, if_neg e2, if_neg e3, if_pos e4]
        have e5 : 128 ≤ 128 + c.toNat / 4096 % 64 ∧ 128 + c.toNat / 4096 % 64 < 192 := by omega
        rw [if_pos e5, if_neg (by omega : ¬ ((3:Nat) ≤ 1))]
        have e6 : 128 ≤ 128 + c.toNat / 64 % 64 ∧ 128 + c.toNat / 64 % 64 < 192 := by omega
        rw [if_pos e6, if_neg (by omega : ¬ ((3:Nat) - 1 ≤ 1))]
        have e7 : 128 ≤ 128 + c.toNat % 64 ∧ 128 + c.toNat % 64 < 192 := by omega
        rw [if_pos e7, if_pos (by omega : (3:Nat) - 1 - 1 ≤ 1)]
        have e8 : 65536 ≤ (((240 + c.toNat / 262144 - 240) * 64 +
              (128 + c.toNat / 4096 % 64 - 128)) * 64 +
              (128 + c.toNat / 64 % 64 - 128)) * 64 + (128 + c.toNat % 64 - 128) ∧
            ((((240 + c.toNat / 262144 - 240) * 64 + (128 + c.toNat / 4096 % 64 - 128)) * 64 +
              (128 + c.toNat / 64 % 64 - 128)) * 64 + (128 + c.toNat % 64 - 128) < 55296 ∨
             57344 ≤ (((240 + c.toNat / 262144 - 240) * 64 + (128 + c.toNat / 4096 % 64 - 128)) * 64 +
              (128 + c.toNat / 64 % 64 - 128)) * 64 + (128 + c.toNat % 64 - 128)) ∧
            (((240 + c.toNat / 262144 - 240) * 64 + (128 + c.toNat / 4096 % 64 - 128)) * 64 +
              (128 + c.toNat / 64 % 64 - 128)) * 64 + (128 + c.toNat % 64 - 128) < 1114112 := by
          omega
        rw [if_pos e8]
        have e9 : (((240 + c.toNat / 262144 - 240) * 64 + (128 + c.toNat / 4096 % 64 - 128)) * 64 +
            (128 + c.toNat / 64 % 64 - 128)) * 64 + (128 + c.toNat % 64 - 128) = c.toNat := by omega
        rw [e9, hofn]
        simp

theorem utf8Decode_append_encode (cs : List Char) (rest : List Nat) :
    utf8Decode (utf8Encode cs ++ rest) = (utf8Decode rest).map (fun ds => cs ++ ds) := by
  unfold utf8Decode
  induction cs with
  | nil =>
    simp only [utf8Encode, List.nil_append]
    cases utf8Run none rest <;> rfl
  | cons c cs ih =>
    show utf8Run none ((utf8EncodeChar c ++ utf8Encode cs) ++ rest) = _
    rw [List.append_assoc, utf8DecodeChar_round, ih]
    cases utf8Run none rest <;> rfl

/-- UTF-8 round trip: decoding an encoded string gives back the string. -/
theorem utf8Decode_encode (cs : List Char) : utf8Decode (utf8Encode cs) = some cs := by
  have h := utf8Decode_append_encode cs []
  rw [List.append_nil] at h
  rw [h]
  simp [utf8Decode, utf8Run]

/-! ### Decimal integer rendering, modelling Python `repr(int)` as used by
`json.dumps` for integer values. -/

/-- Little-endian decimal digits of `n`; the fuel argument makes the
recursion structural (any fuel `≥ n` gives the true digit list). -/
def natDecAux : Nat → Nat → List Nat
  | 0, _ => []
  | fuel + 1, n => if n = 0 then [] else n % 10 :: natDecAux fuel (n / 10)

/-- Most-significant-first decimal digits of `n` (empty for `0`). -/
def natDecDigits (n : Nat) : List Nat := (natDecAux n n).reverse

/-- Decimal rendering of a natural number, as Python prints it. -/
def natDecChars (n : Nat) : List Char :=
  if n = 0 then ['0'] else (natDecDigits n).map (fun d => Char.ofNat (48 + d))

/-- Decimal rendering of an integer, as Python prints it. -/
def intDecChars (i : Int) : List Char :=
  if i < 0 then '-' :: natDecChars (-i).toNat else natDecChars i.toNat

/-- Numeric value of a most-significant-first digit list. -/
def digitsVal (ds : List Nat) : Nat := ds.foldl (fun a d => a * 10 + d) 0

theorem natDecAux_eq_of_le (fuel fuel2 n : Nat) (h : n ≤ fuel) (h2 : n ≤ fuel2) :
    natDecAux fuel n = natDecAux fuel2 n := by
  induction fuel generalizing fuel2 n with
  | zero =>
    have : n = 0 := by omega
    subst this
    cases fuel2 <;> simp [natDecAux]
  | succ fuel ih =>
    cases fuel2 with
    | zero =>
      have : n = 0 := by omega
      subst this
      simp [natDecAux]
    | succ fuel2 =>
      by_cases hn : n = 0
      · subst hn; simp [natDecAux]
      · simp only [natDecAux, if_neg hn]
        have hd : n / 10 ≤ fuel := by omega
        have hd2 : n / 10 ≤ fuel2 := by omega
        rw [ih fuel2 (n / 10) hd hd2]

theorem digitsVal_append_single (ds : List Nat) (d : Nat) :
    digitsVal (ds ++ [d]) = digitsVal ds * 10 + d := by
  simp [digitsVal, List.foldl_append]

theorem natDecAux_lt10 (fuel n : Nat) : ∀ d ∈ natDecAux fuel n, d < 10 := by
  induction fuel generalizing n with
  | zero => simp [natDecAux]
  | succ fuel ih =>
    by_cases hn : n = 0
    · subst hn; simp [natDecAux]
    · simp only [natDecAux, if_neg hn, List.mem_cons]
      rintro d (rfl | hd)
      · omega
      · exact ih _ _ hd

theorem digitsVal_natDecAux_reverse (fuel n : Nat) (h : n ≤ fuel) :
    digitsVal (natDecAux fuel n).reverse = n := by
  induction fuel generalizing n with
  | zero =>
    have : n = 0 := by omega
    subst this
    simp [natDecAux, digitsVal]
  | succ fuel ih =>
    by_cases hn : n = 0
    · subst hn; simp [natDecAux, digitsVal]
    · simp only [natDecAux, if_neg hn, List.reverse_cons]
      rw [digitsVal_append_single, ih (n / 10) (by omega)]
      omega

theorem digitsVal_natDecDigits (n : Nat) : digitsVal (natDecDigits n) = n :=
  digitsVal_natDecAux_reverse n n (Nat.le_refl n)

theorem natDecDigits_lt10 (n : Nat) : ∀ d ∈ natDecDigits n, d < 10 := by
  intro d hd
  exact natDecAux_lt10 n n d (List.mem_reverse.mp hd)

theorem natDecAux_ne_nil (fuel n : Nat) (h : n ≠ 0) (h2 : 0 < fuel) :
    natDecAux fuel n ≠ [] := by
  cases fuel with
  | zero => omega
  | succ fuel => simp [natDecAux, h]

theorem natDecDigits_ne_nil (n : Nat) (h : n ≠ 0) : natDecDigits n ≠ [] := by
  unfold natDecDigits
  intro hcon
  exact natDecAux_ne_nil n n h (by omega) (by simpa using hcon)

/-! ### JSON serialization, modelling `json.dumps(obj, ensure_ascii=False)`
(exactly the call in `Message._json_encode`) and, with the flag set,
`json.dumps(obj)` as called in `SchedulerAPI.send_message`.  Default
separators are `", "` between items and `": "` after keys, as CPython
uses when `indent=None`. -/

/-- Lowercase hex digit, as CPython's `\uXXXX` escapes print it. -/
def hexDigitChar (d : Nat) : Char := Char.ofNat (if d < 10 then 48 + d else 87 + d)

/-- Four lowercase hex digits of `n < 0x10000`. -/
def hex4 (n : Nat) : List Char :=
  [hexDigitChar (n / 4096 % 16), hexDigitChar (n / 256 % 16),
   hexDigitChar (n / 16 % 16), hexDigitChar (n % 16)]

def isHexDigit (c : Char) : Prop :=
  (48 ≤ c.toNat ∧ c.toNat ≤ 57) ∨ (97 ≤ c.toNat ∧ c.toNat ≤ 102) ∨
  (65 ≤ c.toNat ∧ c.toNat ≤ 70)

instance (c : Char) : Decidable (isHexDigit c) := by
  unfold isHexDigit
  infer_instance

def hexVal (c : Char) : Nat :=
  if c.toNat ≤ 57 then c.toNat - 48
  else if c.toNat ≤ 70 then c.toNat - 55
  else c.toNat - 87

/-- The escaping CPython's `json` encoder applies to one character of a
string literal.  With `ascii := false` (the `ensure_ascii=False` call in
`Message._json_encode`) only `"`, `\` and control characters are escaped;
with `ascii := true` (plain `json.dumps` in `SchedulerAPI.send_message`)
characters above `~` are `\u`-escaped as well, astral ones as a surrogate
pair. -/
def escapeChar (ascii : Bool) (c : Char) : List Char :=
  if c = '"' then ['\\', '"']
  else if c = '\\' then ['\\', '\\']
  else if c = Char.ofNat 8 then ['\\', 'b']
  else if c = Char.ofNat 12 then ['\\', 'f']
  else if c = '\n' then ['\\', 'n']
  else if c = '\r' then ['\\', 'r']
  else if c = '\t' then ['\\', 't']
  else if c.toNat < 32 then
    ['\\', 'u', '0', '0', hexDigitChar (c.toNat / 16), hexDigitChar (c.toNat % 16)]
  else if 126 < c.toNat ∧ ascii = true then
    if c.toNat < 65536 then '\\' :: 'u' :: hex4 c.toNat
    else '\\' :: 'u' :: hex4 (55296 + (c.toNat - 65536) / 1024) ++
         '\\' :: 'u' :: hex4 (56320 + (c.toNat - 65536) % 1024)
  else [c]

def escapeList (ascii : Bool) : List Char → List Char
  | [] => []
  | c :: cs => escapeChar ascii c ++ escapeList ascii cs

mutual

/-- `json.dumps` with default separators; `ascii` is the `ensure_ascii`
flag.  (Left brace and right brace characters are written as
`Char.ofNat 123` / `Char.ofNat 125`.) -/
def dumpVal (ascii : Bool) : Json → List Char
  | .null => ['n', 'u', 'l', 'l']
  | .bool b => if b then ['t', 'r', 'u', 'e'] else ['f', 'a', 'l', 's', 'e']
  | .num n => intDecChars n
  | .str s => '"' :: (escapeList ascii s.data ++ ['"'])
  | .arr [] => ['[', ']']
  | .arr (x :: xs) => '[' :: (dumpVal ascii x ++ (dumpItems ascii xs ++ [']']))
  | .obj [] => [Char.ofNat 123, Char.ofNat 125]
  | .obj (kv :: kvs) =>
    Char.ofNat 123 :: (dumpKV ascii kv ++ (dumpFields ascii kvs ++ [Char.ofNat 125]))

/-- The `", item"` tail of a JSON array rendering. -/
def dumpItems (ascii : Bool) : List Json → List Char
  | [] => []
  | x :: xs => ',' :: ' ' :: (dumpVal ascii x ++ dumpItems ascii xs)

/-- One `"key": value` member of a JSON object rendering. -/
def dumpKV (ascii : Bool) : String × Json → List Char
  | (k, v) => '"' :: (escapeList ascii k.data ++ ('"' :: ':' :: ' ' :: dumpVal ascii v))

/-- The `", key: value"` tail of a JSON object rendering. -/
def dumpFields (ascii : Bool) : List (String × Json) → List Char
  | [] => []
  | kv :: kvs => ',' :: ' ' :: (dumpKV ascii kv ++ dumpFields ascii kvs)

end

/-! ### JSON parsing, modelling `json.load` as called by
`Message._json_decode` (on the grammar that `json.dumps` emits; floating
point numbers are not modelled, integers are). -/

def skipWs : List Char → List Char
  | [] => []
  | c :: cs => if c = ' ' ∨ c = '\t' ∨ c = '\n' ∨ c = '\r' then skipWs cs else c :: cs

/-- Match an expected literal character sequence, returning the remainder. -/
def expectChars : List Char → List Char → Option (List Char)
  | [], input => some input
  | _ :: _, [] => none
  | p :: ps, c :: cs => if c = p then expectChars ps cs else none

/-- Body of a JSON string literal (after the opening quote), undoing
`escapeChar`; raw control characters are rejected (`json.load` is strict). -/
def parseStrBody : List Char → Option (List Char × List Char)
  | [] => none
  | c :: rest =>
    if c = '"' then some ([], rest)
    else if c = '\\' then
      match rest with
      | [] => none
      | e :: rest2 =>
        if e = '"' then (parseStrBody rest2).map (fun p => ('"' :: p.1, p.2))
        else if e = '\\' then (parseStrBody rest2).map (fun p => ('\\' :: p.1, p.2))
        else if e = '/' then (parseStrBody rest2).map (fun p => ('/' :: p.1, p.2))
        else if e = 'b' then (parseStrBody rest2).map (fun p => (Char.ofNat 8 :: p.1, p.2))
        else if e = 'f' then (parseStrBody rest2).map (fun p => (Char.ofNat 12 :: p.1, p.2))
        else if e = 'n' then (parseStrBody rest2).map (fun p => ('\n' :: p.1, p.2))
        else if e = 'r' then (parseStrBody rest2).map (fun p => ('\r' :: p.1, p.2))
        else if e = 't' then (parseStrBody rest2).map (fun p => ('\t' :: p.1, p.2))
        else if e = 'u' then
          match rest2 with
          | h1 :: h2 :: h3 :: h4 :: rest3 =>
            if isHexDigit h1 ∧ isHexDigit h2 ∧ isHexDigit h3 ∧ isHexDigit h4 then
              if (hexVal h1 * 4096 + hexVal h2 * 256 + hexVal h3 * 16 + hexVal h4).isValidChar then
                (parseStrBody rest3).map
                  (fun p =>
                    (Char.ofNat (hexVal h1 * 4096 + hexVal h2 * 256 + hexVal h3 * 16 + hexVal h4)
                      :: p.1, p.2))
              else none
            else none
          | _ => none
        else none
    else if c.toNat < 32 then none
    else (parseStrBody rest).map (fun p => (c :: p.1, p.2))

/-- Leading decimal digits of the input, with their values. -/
def takeDigits : List Char → (List Nat × List Char)
  | [] => ([], [])
  | c :: cs =>
    if 48 ≤ c.toNat ∧ c.toNat ≤ 57 then
      ((c.toNat - 48) :: (takeDigits cs).1, (takeDigits cs).2)
    else ([], c :: cs)

/-- A JSON integer literal (an optional minus sign and decimal digits). -/
def parseNumber : List Char → Option (Json × List Char)
  | [] => none
  | c :: rest =>
    if c = '-' then
      if (takeDigits rest).1 = [] then none
      else some (.num (-(digitsVal (takeDigits rest).1 : Int)), (takeDigits rest).2)
    else
      if (takeDigits (c :: rest)).1 = [] then none
      else some (.num ((digitsVal (takeDigits (c :: rest)).1 : Int)), (takeDigits (c :: rest)).2)

/-- Intermediate results of the recursive-descent JSON parser. -/
inductive PTok where
  | val (j : Json)
  | items (xs : List Json)
  | fields (kvs : List (String × Json))

/-- Parser modes: a value, the members of a non-empty array, or the
members of a non-empty object. -/
inductive PMode where
  | val
  | items
  | fields

/-- Recursive-descent JSON parser; the fuel argument makes the recursion
structural, and any fuel of at least twice the input length suffices
(proved for serializer output below). -/
def parseF : Nat → PMode → List Char → Option (PTok × List Char)
  | 0, _, _ => none
  | fuel + 1, .val, input =>
    match skipWs input with
    | [] => none
    | c :: rest =>
      if c = 'n' then (expectChars ['u', 'l', 'l'] rest).map (fun r => (.val .null, r))
      else if c = 't' then (expectChars ['r', 'u', 'e'] rest).map (fun r => (.val (.bool true), r))
      else if c = 'f' then
        (expectChars ['a', 'l', 's', 'e'] rest).map (fun r => (.val (.bool false), r))
      else if c = '"' then (parseStrBody rest).map (fun p => (.val (.str (String.mk p.1)), p.2))
      else if c = '[' then
        match skipWs rest with
        | [] => none
        | d :: rest2 =>
          if d = ']' then some (.val (.arr []), rest2)
          else
            match parseF fuel .items (d :: rest2) with
            | some (.items xs, r) => some (.val (.arr xs), r)
            | _ => none
      else if c = Char.ofNat 123 then
        match skipWs rest with
        | [] => none
        | d :: rest2 =>
          if d = Char.ofNat 125 then some (.val (.obj []), rest2)
          else
            match parseF fuel .fields (d :: rest2) with
            | some (.fields kvs, r) => some (.val (.obj kvs), r)
            | _ => none
      else if c = '-' ∨ (48 ≤ c.toNat ∧ c.toNat ≤ 57) then
        (parseNumber (c :: rest)).map (fun p => (.val p.1, p.2))
      else none
  | fuel + 1, .items, input =>
    match parseF fuel .val input with
    | some (.val j, rest) =>
      (match skipWs rest with
       | [] => none
       | c :: rest2 =>
         if c = ',' then
           match parseF fuel .items rest2 with
           | some (.items xs, rest3) => some (.items (j :: xs), rest3)
           | _ => none
         else if c = ']' then some (.items [j], rest2)
         else none)
    | _ => none
  | fuel + 1, .fields, input =>
    match skipWs input with
    | [] => none
    | c :: rest =>
      if c = '"' then
        match parseStrBody rest with
        | none => none
        | some (k, rest2) =>
          match skipWs rest2 with
          | [] => none
          | d :: rest3 =>
            if d = ':' then
              match parseF fuel .val rest3 with
              | some (.val v, rest4) =>
                (match skipWs rest4 with
                 | [] => none
                 | e :: rest5 =>
                   if e = ',' then
                     match parseF fuel .fields rest5 with
                     | some (.fields kvs, rest6) => some (.fields ((String.mk k, v) :: kvs), rest6)
                     | _ => none
                   else if e = Char.ofNat 125 then some (.fields [(String.mk k, v)], rest5)
                   else none)
              | _ => none
            else none
      else none

/-- `json.load` on a character stream: parse one value, then require only
whitespace to remain. -/
def jsonLoads (cs : List Char) : Option Json :=
  match parseF (2 * cs.length + 2) .val cs with
  | some (.val j, rest) => if skipWs rest = [] then some j else none
  | _ => none

/-! ### Round-trip lemmas: hex digits, escaped strings, integers -/

theorem hexDigitChar_toNat (d : Nat) (h16 : d < 16) :
    (hexDigitChar d).toNat = if d < 10 then 48 + d else 87 + d := by
  unfold hexDigitChar
  by_cases hd : d < 10
  · rw [if_pos hd, toNat_ofNat_small (by omega)]
  · rw [if_neg hd, toNat_ofNat_small (by omega)]

theorem isHexDigit_hexDigitChar (d : Nat) (h : d < 16) : isHexDigit (hexDigitChar d) := by
  unfold isHexDigit
  rw [hexDigitChar_toNat d h]
  by_cases hd : d < 10
  · rw [if_pos hd]; left; omega
  · rw [if_neg hd]; right; left; omega

theorem hexVal_hexDigitChar (d : Nat) (h : d < 16) : hexVal (hexDigitChar d) = d := by
  unfold hexVal
  rw [hexDigitChar_toNat d h]
  by_cases hd : d < 10
  · rw [if_pos hd, if_pos (by omega : 48 + d ≤ 57)]; omega
  · rw [if_neg hd, if_neg (by omega : ¬ (87 + d ≤ 57)), if_neg (by omega : ¬ (87 + d ≤ 70))]
    omega

theorem psb_quote (tail : List Char) :
    parseStrBody ('\\' :: '"' :: tail) = (parseStrBody tail).map (fun p => ('"' :: p.1, p.2)) := by
  rw [parseStrBody.eq_def]
  dsimp only
  rw [if_neg (by decide : ¬ ('\\' : Char) = '"'), if_pos rfl, if_pos rfl]

theorem psb_backslash (tail : List Char) :
    parseStrBody ('\\' :: '\\' :: tail) =
      (parseStrBody tail).map (fun p => ('\\' :: p.1, p.2)) := by
  rw [parseStrBody.eq_def]
  dsimp only
  rw [if_neg (by decide : ¬ ('\\' : Char) = '"'), if_pos rfl,
    if_neg (by decide : ¬ ('\\' : Char) = '"'), if_pos rfl]

theorem psb_b (tail : List Char) :
    parseStrBody ('\\' :: 'b' :: tail) =
      (parseStrBody tail).map (fun p => (Char.ofNat 8 :: p.1, p.2)) := by
  rw [parseStrBody.eq_def]
  dsimp only
  rw [if_neg (by decide : ¬ ('\\' : Char) = '"'), if_pos rfl,
    if_neg (by decide : ¬ ('b' : Char) = '"'), if_neg (by decide : ¬ ('b' : Char) = '\\'),
    if_neg (by decide : ¬ ('b' : Char) = '/'), if_pos rfl]

theorem psb_f (tail : List Char) :
    parseStrBody ('\\' :: 'f' :: tail) =
      (parseStrBody tail).map (fun p => (Char.ofNat 12 :: p.1, p.2)) := by
  rw [parseStrBody.eq_def]
  dsimp only
  rw [if_neg (by decide : ¬ ('\\' : Char) = '"'), if_pos rfl,
    if_neg (by decide : ¬ ('f' : Char) = '"'), if_neg (by decide : ¬ ('f' : Char) = '\\'),
    if_neg (by decide : ¬ ('f' : Char) = '/'), if_neg (by decide : ¬ ('f' : Char) = 'b'),
    if_pos rfl]

theorem psb_n (tail : List Char) :
    parseStrBody ('\\' :: 'n' :: tail) =
      (parseStrBody tail).map (fun p => ('\n' :: p.1, p.2)) := by
  rw [parseStrBody.eq_def]
  dsimp only
  rw [if_neg (by decide : ¬ ('\\' : Char) = '"'), if_pos rfl,
    if_neg (by decide : ¬ ('n' : Char) = '"'), if_neg (by decide : ¬ ('n' : Char) = '\\'),
    if_neg (by decide : ¬ ('n' : Char) = '/'), if_neg (by decide : ¬ ('n' : Char) = 'b'),
    if_neg (by decide : ¬ ('n' : Char) = 'f'), if_pos rfl]

theorem psb_r (tail : List Char) :
    parseStrBody ('\\' :: 'r' :: tail) =
      (parseStrBody tail).map (fun p => ('\r' :: p.1, p.2)) := by
  rw [parseStrBody.eq_def]
  dsimp only
  rw [if_neg (by decide : ¬ ('\\' : Char) = '"'), if_pos rfl,
    if_neg (by decide : ¬ ('r' : Char) = '"'), if_neg (by decide : ¬ ('r' : Char) = '\\'),
    if_neg (by decide : ¬ ('r' : Char) = '/'), if_neg (by decide : ¬ ('r' : Char) = 'b'),
    if_neg (by decide : ¬ ('r' : Char) = 'f'), if_neg (by decide : ¬ ('r' : Char) = 'n'),
    if_pos rfl]

theorem psb_t (tail : List Char) :
    parseStrBody ('\\' :: 't' :: tail) =
      (parseStrBody tail).map (fun p => ('\t' :: p.1, p.2)) := by
  rw [parseStrBody.eq_def]
  dsimp only
  rw [if_neg (by decide : ¬ ('\\' : Char) = '"'), if_pos rfl,
    if_neg (by decide : ¬ ('t' : Char) = '"'), if_neg (by decide : ¬ ('t' : Char) = '\\'),
    if_neg (by decide : ¬ ('t' : Char) = '/'), if_neg (by decide : ¬ ('t' : Char) = 'b'),
    if_neg (by decide : ¬ ('t' : Char) = 'f'), if_neg (by decide : ¬ ('t' : Char) = 'n'),
    if_neg (by decide : ¬ ('t' : Char) = 'r'), if_pos rfl]

theorem psb_generic (c : Char) (tail : List Char) (h1 : ¬ c = '"') (h2 : ¬ c = '\\')
    (h3 : ¬ c.toNat < 32) :
    parseStrBody (c :: tail) = (parseStrBody tail).map (fun p => (c :: p.1, p.2)) := by
  rw [parseStrBody.eq_def]
  dsimp only
  rw [if_neg h1, if_neg h2, if_neg h3]

theorem psb_u (c : Char) (tail : List Char) (h : c.toNat < 32) :
    parseStrBody ('\\' :: 'u' :: '0' :: '0' ::
        hexDigitChar (c.toNat / 16) :: hexDigitChar (c.toNat % 16) :: tail) =
      (parseStrBody tail).map (fun p => (c :: p.1, p.2)) := by
  rw [parseStrBody.eq_def]
  dsimp only
  rw [if_neg (by decide : ¬ ('\\' : Char) = '"'), if_pos rfl,
    if_neg (by decide : ¬ ('u' : Char) = '"'), if_neg (by decide : ¬ ('u' : Char) = '\\'),
    if_neg (by decide : ¬ ('u' : Char) = '/'), if_neg (by decide : ¬ ('u' : Char) = 'b'),
    if_neg (by decide : ¬ ('u' : Char) = 'f'), if_neg (by decide : ¬ ('u' : Char) = 'n'),
    if_neg (by decide : ¬ ('u' : Char) = 'r'), if_neg (by decide : ¬ ('u' : Char) = 't'),
    if_pos rfl]
  have hx : isHexDigit '0' ∧ isHexDigit '0' ∧ isHexDigit (hexDigitChar (c.toNat / 16)) ∧
      isHexDigit (hexDigitChar (c.toNat % 16)) :=
    ⟨by decide, by decide, isHexDigit_hexDigitChar _ (by omega), isHexDigit_hexDigitChar _ (by omega)⟩
  rw [if_pos hx]
  have hv0 : hexVal '0' = 0 := by decide
  rw [hv0, hexVal_hexDigitChar _ (by omega), hexVal_hexDigitChar _ (by omega)]
  have he : 0 * 4096 + 0 * 256 + c.toNat / 16 * 16 + c.toNat % 16 = c.toNat := by omega
  rw [he]
  rw [if_pos (Or.inl (by omega : c.toNat < 55296) : c.toNat.isValidChar)]
  rw [Char.ofNat_toNat]

/-- Round trip for string bodies: parsing undoes `ensure_ascii=False`
escaping up to the closing quote. -/
theorem parseStrBody_escape (cs : List Char) (rest : List Char) :
    parseStrBody (escapeList false cs ++ ('"' :: rest)) = some (cs, rest) := by
  induction cs with
  | nil =>
    show parseStrBody ('"' :: rest) = _
    rw [parseStrBody.eq_def]
    dsimp only
    rw [if_pos rfl]
  | cons c cs ih =>
    show parseStrBody ((escapeChar false c ++ escapeList false cs) ++ ('"' :: rest)) = _
    rw [List.append_assoc]
    unfold escapeChar
    by_cases e1 : c = '"'
    · rw [if_pos e1]
      subst e1
      show parseStrBody ('\\' :: '"' :: (escapeList false cs ++ '"' :: rest)) = _
      rw [psb_quote, ih]
      rfl
    · rw [if_neg e1]
      by_cases e2 : c = '\\'
      · rw [if_pos e2]
        subst e2
        show parseStrBody ('\\' :: '\\' :: (escapeList false cs ++ '"' :: rest)) = _
        rw [psb_backslash, ih]
        rfl
      · rw [if_neg e2]
        by_cases e3 : c = Char.ofNat 8
        · rw [if_pos e3]
          subst e3
          show parseStrBody ('\\' :: 'b' :: (escapeList false cs ++ '"' :: rest)) = _
          rw [psb_b, ih]
          rfl
        · rw [if_neg e3]
          by_cases e4 : c = Char.ofNat 12
          · rw [if_pos e4]
            subst e4
            show parseStrBody ('\\' :: 'f' :: (escapeList false cs ++ '"' :: rest)) = _
            rw [psb_f, ih]
            rfl
          · rw [if_neg e4]
            by_cases e5 : c = '\n'
            · rw [if_pos e5]
              subst e5
              show parseStrBody ('\\' :: 'n' :: (escapeList false cs ++ '"' :: rest)) = _
              rw [psb_n, ih]
              rfl
            · rw [if_neg e5]
              by_cases e6 : c = '\r'
              · rw [if_pos e6]
                subst e6
                show parseStrBody ('\\' :: 'r' :: (escapeList false cs ++ '"' :: rest)) = _
                rw [psb_r, ih]
                rfl
              · rw [if_neg e6]
                by_cases e7 : c = '\t'
                · rw [if_pos e7]
                  subst e7
                  show parseStrBody ('\\' :: 't' :: (escapeList false cs ++ '"' :: rest)) = _
                  rw [psb_t, ih]
                  rfl
                · rw [if_neg e7]
                  by_cases e8 : c.toNat < 32
                  · rw [if_pos e8]
                    show parseStrBody ('\\' :: 'u' :: '0' :: '0' ::
                        hexDigitChar (c.toNat / 16) :: hexDigitChar (c.toNat % 16) ::
                        (escapeList false cs ++ '"' :: rest)) = _
                    rw [psb_u c _ e8, ih]
                    rfl
                  · rw [if_neg e8]
                    rw [if_neg (by simp : ¬ (126 < c.toNat ∧ false = true))]
                    show parseStrBody (c :: (escapeList false cs ++ '"' :: rest)) = _
                    rw [psb_generic c _ e1 e2 e8, ih]
                    rfl

/-- The continuation after a rendered token must not begin with a decimal
digit (so that number parsing stops in the right place). -/
def noDigitHead : List Char → Prop
  | [] => True
  | c :: _ => ¬ (48 ≤ c.toNat ∧ c.toNat ≤ 57)

theorem takeDigits_exact (ds : List Nat) (h : ∀ d ∈ ds, d < 10) (rest : List Char)
    (hrest : noDigitHead rest) :
    takeDigits ((ds.map (fun d => Char.ofNat (48 + d))) ++ rest) = (ds, rest) := by
  induction ds with
  | nil =>
    simp only [List.map_nil, List.nil_append]
    cases rest with
    | nil => rfl
    | cons c cs =>
      rw [takeDigits]
      rw [if_neg (by exact hrest)]
  | cons d ds ih =>
    have hd : d < 10 := h d (List.mem_cons_self d ds)
    have htn : (Char.ofNat (48 + d)).toNat = 48 + d := toNat_ofNat_small (by omega)
    simp only [List.map_cons, List.cons_append]
    rw [takeDigits]
    rw [if_pos (by rw [htn]; omega)]
    rw [ih (fun x hx => h x (List.mem_cons_of_mem d hx))]
    rw [htn]
    simp only [Nat.add_sub_cancel_left]

/-- `natDecChars` is the digit list of `decDigitsFull` rendered as
characters. -/
def decDigitsFull (n : Nat) : List Nat := if n = 0 then [0] else natDecDigits n

theorem natDecChars_eq_map (n : Nat) :
    natDecChars n = (decDigitsFull n).map (fun d => Char.ofNat (48 + d)) := by
  unfold natDecChars decDigitsFull
  by_cases hn : n = 0
  · rw [if_pos hn, if_pos hn]
    rfl
  · rw [if_neg hn, if_neg hn]

theorem decDigitsFull_lt10 (n : Nat) : ∀ d ∈ decDigitsFull n, d < 10 := by
  unfold decDigitsFull
  by_cases hn : n = 0
  · rw [if_pos hn]; intro d hd; simp at hd; omega
  · rw [if_neg hn]; exact natDecDigits_lt10 n

theorem digitsVal_decDigitsFull (n : Nat) : digitsVal (decDigitsFull n) = n := by
  unfold decDigitsFull
  by_cases hn : n = 0
  · rw [if_pos hn, hn]; rfl
  · rw [if_neg hn]; exact digitsVal_natDecDigits n

theorem decDigitsFull_ne_nil (n : Nat) : decDigitsFull n ≠ [] := by
  unfold decDigitsFull
  by_cases hn : n = 0
  · rw [if_pos hn]; simp
  · rw [if_neg hn]; exact natDecDigits_ne_nil n hn

theorem natDecChars_head_digit (n : Nat) :
    ∃ c tl, natDecChars n = c :: tl ∧ 48 ≤ c.toNat ∧ c.toNat ≤ 57 := by
  rw [natDecChars_eq_map]
  obtain ⟨d, ds, hds⟩ : ∃ d ds, decDigitsFull n = d :: ds := by
    cases hd : decDigitsFull n with
    | nil => exact absurd hd (decDigitsFull_ne_nil n)
    | cons d ds => exact ⟨d, ds, rfl⟩
  refine ⟨Char.ofNat (48 + d), ds.map (fun d => Char.ofNat (48 + d)), by rw [hds]; rfl, ?_⟩
  have hd10 : d < 10 := decDigitsFull_lt10 n d (by rw [hds]; exact List.mem_cons_self d ds)
  rw [toNat_ofNat_small (by omega)]
  omega

theorem parseNumber_round (i : Int) (rest : List Char) (hrest : noDigitHead rest) :
    parseNumber (intDecChars i ++ rest) = some (.num i, rest) := by
  unfold intDecChars
  by_cases hneg : i < 0
  · rw [if_pos hneg]
    simp only [List.cons_append]
    rw [parseNumber]
    rw [if_pos rfl]
    rw [natDecChars_eq_map]
    rw [takeDigits_exact _ (decDigitsFull_lt10 _) rest hrest]
    rw [if_neg (by simpa using decDigitsFull_ne_nil (-i).toNat)]
    rw [digitsVal_decDigitsFull]
    have : -(((-i).toNat : Int)) = i := by omega
    rw [this]
  · rw [if_neg hneg]
    obtain ⟨c, tl, hct, hc1, hc2⟩ := natDecChars_head_digit i.toNat
    rw [hct]
    simp only [List.cons_append]
    rw [parseNumber]
    rw [if_neg (by
      intro hcon
      rw [hcon] at hc1 hc2
      revert hc1 hc2
      decide)]
    have : c :: (tl ++ rest) = natDecChars i.toNat ++ rest := by rw [hct]; rfl
    rw [this]
    rw [natDecChars_eq_map]
    rw [takeDigits_exact _ (decDigitsFull_lt10 _) rest hrest]
    rw [if_neg (by simpa using decDigitsFull_ne_nil i.toNat)]
    rw [digitsVal_decDigitsFull]
    have : ((i.toNat : Int)) = i := by omega
    rw [this]

/-! ### Supporting lemmas for the full JSON round trip -/

/-- The head of the list is not JSON whitespace (vacuous for `[]`). -/
def headNotWs : List Char → Prop
  | [] => True
  | c :: _ => ¬ (c = ' ' ∨ c = '\t' ∨ c = '\n' ∨ c = '\r')

theorem headNotWs_cons (c : Char) (cs : List Char)
    (h : ¬ (c = ' ' ∨ c = '\t' ∨ c = '\n' ∨ c = '\r')) : headNotWs (c :: cs) := h

theorem skipWs_eq_self (t : List Char) (h : headNotWs t) : skipWs t = t := by
  cases t with
  | nil => rfl
  | cons c cs =>
    rw [skipWs]
    rw [if_neg (by exact h)]

/-- An optional single space, as the serializer's separators emit. -/
def isSp (sp : List Char) : Prop := sp = [] ∨ sp = [' ']

theorem skipWs_sp (sp t : List Char) (hsp : isSp sp) (h : headNotWs t) :
    skipWs (sp ++ t) = t := by
  rcases hsp with rfl | rfl
  · rw [List.nil_append]
    exact skipWs_eq_self t h
  · show skipWs (' ' :: t) = t
    rw [skipWs]
    rw [if_pos (Or.inl rfl)]
    exact skipWs_eq_self t h

theorem expectChars_append (ps rest : List Char) : expectChars ps (ps ++ rest) = some rest := by
  induction ps with
  | nil => rfl
  | cons p ps ih =>
    rw [List.cons_append, expectChars, if_pos rfl, ih]

/-- The characters a serialized JSON value can start with. -/
def headByteP (c : Char) : Prop :=
  c = 'n' ∨ c = 't' ∨ c = 'f' ∨ c = '"' ∨ c = '[' ∨ c = Char.ofNat 123 ∨ c = '-' ∨
  (48 ≤ c.toNat ∧ c.toNat ≤ 57)

theorem headByteP_facts (c : Char) (h : headByteP c) :
    ¬ (c = ' ' ∨ c = '\t' ∨ c = '\n' ∨ c = '\r') ∧ ¬ c = ']' ∧ ¬ c = Char.ofNat 125 ∧
    ¬ c = ',' ∧ ¬ c = ':' := by
  rcases h with rfl | rfl | rfl | rfl | rfl | rfl | rfl | hd
  · exact ⟨by decide, by decide, by decide, by decide, by decide⟩
  · exact ⟨by decide, by decide, by decide, by decide, by decide⟩
  · exact ⟨by decide, by decide, by decide, by decide, by decide⟩
  · exact ⟨by decide, by decide, by decide, by decide, by decide⟩
  · exact ⟨by decide, by decide, by decide, by decide, by decide⟩
  · exact ⟨by decide, by decide, by decide, by decide, by decide⟩
  · exact ⟨by decide, by decide, by decide, by decide, by decide⟩
  · refine ⟨?_, ?_, ?_, ?_, ?_⟩
    · rintro (rfl | rfl | rfl | rfl) <;> exact absurd hd (by decide)
    · rintro rfl; exact absurd hd (by decide)
    · rintro rfl; exact absurd hd (by decide)
    · rintro rfl; exact absurd hd (by decide)
    · rintro rfl; exact absurd hd (by decide)

theorem dumpVal_head (a : Bool) (j : Json) :
    ∃ c cs, dumpVal a j = c :: cs ∧ headByteP c := by
  cases j with
  | null => exact ⟨'n', _, by rw [dumpVal], Or.inl rfl⟩
  | bool b =>
    cases b with
    | false => exact ⟨'f', _, by rw [dumpVal]; rfl, Or.inr (Or.inr (Or.inl rfl))⟩
    | true => exact ⟨'t', _, by rw [dumpVal]; rfl, Or.inr (Or.inl rfl)⟩
  | num n =>
    have hd : dumpVal a (.num n) = intDecChars n := by rw [dumpVal]
    by_cases hneg : n < 0
    · refine ⟨'-', natDecChars (-n).toNat, ?_, ?_⟩
      · rw [hd]; unfold intDecChars; rw [if_pos hneg]
      · exact Or.inr (Or.inr (Or.inr (Or.inr (Or.inr (Or.inr (Or.inl rfl))))))
    · obtain ⟨c, tl, hct, hc1, hc2⟩ := natDecChars_head_digit n.toNat
      refine ⟨c, tl, ?_, ?_⟩
      · rw [hd]; unfold intDecChars; rw [if_neg hneg]; exact hct
      · exact Or.inr (Or.inr (Or.inr (Or.inr (Or.inr (Or.inr (Or.inr ⟨hc1, hc2⟩))))))
  | str s => exact ⟨'"', _, by rw [dumpVal], Or.inr (Or.inr (Or.inr (Or.inl rfl)))⟩
  | arr xs =>
    cases xs with
    | nil => exact ⟨'[', _, by rw [dumpVal], Or.inr (Or.inr (Or.inr (Or.inr (Or.inl rfl))))⟩
    | cons x xs => exact ⟨'[', _, by rw [dumpVal], Or.inr (Or.inr (Or.inr (Or.inr (Or.inl rfl))))⟩
  | obj kvs =>
    cases kvs with
    | nil =>
      exact ⟨Char.ofNat 123, _, by rw [dumpVal],
        Or.inr (Or.inr (Or.inr (Or.inr (Or.inr (Or.inl rfl)))))⟩
    | cons kv kvs =>
      exact ⟨Char.ofNat 123, _, by rw [dumpVal],
        Or.inr (Or.inr (Or.inr (Or.inr (Or.inr (Or.inl rfl)))))⟩

theorem noDigitHead_dumpItems (xs : List Json) (rest : List Char) :
    noDigitHead (dumpItems false xs ++ (']' :: rest)) := by
  cases xs with
  | nil =>
    show noDigitHead (']' :: rest)
    exact (by decide : ¬ (48 ≤ (']' : Char).toNat ∧ (']' : Char).toNat ≤ 57))
  | cons y ys =>
    show noDigitHead (',' :: _)
    exact (by decide : ¬ (48 ≤ (',' : Char).toNat ∧ (',' : Char).toNat ≤ 57))

theorem noDigitHead_dumpFields (kvs : List (String × Json)) (rest : List Char) :
    noDigitHead (dumpFields false kvs ++ (Char.ofNat 125 :: rest)) := by
  cases kvs with
  | nil =>
    show noDigitHead (Char.ofNat 125 :: rest)
    exact (by decide : ¬ (48 ≤ (Char.ofNat 125).toNat ∧ (Char.ofNat 125).toNat ≤ 57))
  | cons kv kvs =>
    show noDigitHead (',' :: _)
    exact (by decide : ¬ (48 ≤ (',' : Char).toNat ∧ (',' : Char).toNat ≤ 57))

theorem length_dumpItems_cons (a : Bool) (y : Json) (ys : List Json) :
    (dumpItems a (y :: ys)).length = 2 + (dumpVal a y).length + (dumpItems a ys).length := by
  rw [dumpItems]
  simp [List.length_append]
  omega

theorem length_dumpKV (a : Bool) (k : String) (v : Json) :
    (dumpKV a (k, v)).length = 4 + (escapeList a k.data).length + (dumpVal a v).length := by
  rw [dumpKV]
  simp [List.length_append]
  omega

theorem length_dumpFields_cons (a : Bool) (kv : String × Json) (kvs : List (String × Json)) :
    (dumpFields a (kv :: kvs)).length = 2 + (dumpKV a kv).length + (dumpFields a kvs).length := by
  rw [dumpFields]
  simp [List.length_append]
  omega

theorem length_dumpVal_arr_cons (a : Bool) (x : Json) (xs : List Json) :
    (dumpVal a (.arr (x :: xs))).length =
      2 + (dumpVal a x).length + (dumpItems a xs).length := by
  rw [dumpVal]
  simp [List.length_append]
  omega

theorem length_dumpVal_obj_cons (a : Bool) (kv : String × Json) (kvs : List (String × Json)) :
    (dumpVal a (.obj (kv :: kvs))).length =
      2 + (dumpKV a kv).length + (dumpFields a kvs).length := by
  rw [dumpVal]
  simp [List.length_append]
  omega

theorem digit_not_special (c : Char) (h1 : 48 ≤ c.toNat) (h2 : c.toNat ≤ 57) :
    ¬ c = 'n' ∧ ¬ c = 't' ∧ ¬ c = 'f' ∧ ¬ c = '"' ∧ ¬ c = '[' ∧ ¬ c = Char.ofNat 123 := by
  refine ⟨?_, ?_, ?_, ?_, ?_, ?_⟩ <;>
    (rintro rfl; exact absurd (And.intro h1 h2) (by decide))

/-! ### The full serializer/parser round trip -/

theorem parseItems_round (N : Nat)
    (ihv : ∀ (j : Json), sizeOf j ≤ N → ∀ (sp rest : List Char) (fuel : Nat), isSp sp →
      2 * (sp.length + (dumpVal false j).length) + 2 ≤ fuel → noDigitHead rest →
      parseF fuel .val (sp ++ (dumpVal false j ++ rest)) = some (.val j, rest)) :
    ∀ (xs : List Json), (∀ y ∈ xs, sizeOf y ≤ N) →
    ∀ (x : Json), sizeOf x ≤ N →
    ∀ (sp rest : List Char) (fuel : Nat), isSp sp →
      2 * (sp.length + (dumpVal false x).length + (dumpItems false xs).length + 1) + 2 ≤ fuel →
      parseF fuel .items (sp ++ (dumpVal false x ++ (dumpItems false xs ++ (']' :: rest)))) =
        some (.items (x :: xs), rest) := by
  intro xs
  induction xs with
  | nil =>
    intro _ x hx sp rest fuel hsp hfuel
    have h0 : (dumpItems false ([] : List Json)).length = 0 := rfl
    obtain ⟨f, rfl⟩ : ∃ f, fuel = f + 1 := ⟨fuel - 1, by omega⟩
    rw [parseF]
    rw [ihv x hx sp _ f hsp (by omega) (noDigitHead_dumpItems [] rest)]
    dsimp only
    have h1 : dumpItems false ([] : List Json) ++ (']' :: rest) = ']' :: rest := rfl
    rw [h1, skipWs_eq_self _ (headNotWs_cons _ _ (by decide))]
    dsimp only
    rw [if_neg (by decide), if_pos rfl]
  | cons y ys ih =>
    intro hys x hx sp rest fuel hsp hfuel
    have hlen := length_dumpItems_cons false y ys
    obtain ⟨f, rfl⟩ : ∃ f, fuel = f + 1 := ⟨fuel - 1, by omega⟩
    rw [parseF]
    rw [ihv x hx sp _ f hsp (by omega) (noDigitHead_dumpItems (y :: ys) rest)]
    dsimp only
    have h1 : dumpItems false (y :: ys) ++ (']' :: rest) =
        ',' :: (' ' :: (dumpVal false y ++ (dumpItems false ys ++ (']' :: rest)))) := by
      rw [dumpItems]
      simp [List.append_assoc]
    rw [h1, skipWs_eq_self _ (headNotWs_cons _ _ (by decide))]
    dsimp only
    rw [if_pos rfl]
    have h2 : (' ' :: (dumpVal false y ++ (dumpItems false ys ++ (']' :: rest)))) =
        [' '] ++ (dumpVal false y ++ (dumpItems false ys ++ (']' :: rest))) := rfl
    rw [h2]
    rw [ih (fun z hz => hys z (List.mem_cons_of_mem _ hz)) y
      (hys y (List.mem_cons_self y ys)) [' '] rest f (Or.inr rfl) (by simp only [List.length_cons, List.length_nil]; omega)]

theorem parseFields_round (N : Nat)
    (ihv : ∀ (j : Json), sizeOf j ≤ N → ∀ (sp rest : List Char) (fuel : Nat), isSp sp →
      2 * (sp.length + (dumpVal false j).length) + 2 ≤ fuel → noDigitHead rest →
      parseF fuel .val (sp ++ (dumpVal false j ++ rest)) = some (.val j, rest)) :
    ∀ (kvs : List (String × Json)), (∀ kv ∈ kvs, sizeOf kv.2 ≤ N) →
    ∀ (k : String) (v : Json), sizeOf v ≤ N →
    ∀ (sp rest : List Char) (fuel : Nat), isSp sp →
      2 * (sp.length + (dumpKV false (k, v)).length + (dumpFields false kvs).length + 1) + 2 ≤
        fuel →
      parseF fuel .fields
          (sp ++ (dumpKV false (k, v) ++ (dumpFields false kvs ++ (Char.ofNat 125 :: rest)))) =
        some (.fields ((k, v) :: kvs), rest) := by
  intro kvs
  induction kvs with
  | nil =>
    intro _ k v hv sp rest fuel hsp hfuel
    have h0 : (dumpFields false ([] : List (String × Json))).length = 0 := rfl
    have hlkv := length_dumpKV false k v
    obtain ⟨f, rfl⟩ : ∃ f, fuel = f + 1 := ⟨fuel - 1, by omega⟩
    rw [parseF]
    have h1 : dumpKV false (k, v) ++
        (dumpFields false ([] : List (String × Json)) ++ (Char.ofNat 125 :: rest)) =
        '"' :: (escapeList false k.data ++
          ('"' :: (':' :: (' ' :: (dumpVal false v ++ (Char.ofNat 125 :: rest)))))) := by
      rw [dumpKV]
      simp [List.append_assoc, dumpFields]
    rw [h1, skipWs_sp sp _ hsp (headNotWs_cons _ _ (by decide))]
    dsimp only
    rw [if_pos rfl, parseStrBody_escape]
    dsimp only
    rw [skipWs_eq_self _ (headNotWs_cons _ _ (by decide))]
    dsimp only
    rw [if_pos rfl]
    have h2 : (' ' :: (dumpVal false v ++ (Char.ofNat 125 :: rest))) =
        [' '] ++ (dumpVal false v ++ (Char.ofNat 125 :: rest)) := rfl
    rw [h2]
    rw [ihv v hv [' '] _ f (Or.inr rfl)
      (by simp only [List.length_cons, List.length_nil]; omega)
      (by
        show noDigitHead (Char.ofNat 125 :: rest)
        exact (by decide : ¬ (48 ≤ (Char.ofNat 125).toNat ∧ (Char.ofNat 125).toNat ≤ 57)))]
    dsimp only
    rw [skipWs_eq_self _ (headNotWs_cons _ _ (by decide))]
    dsimp only
    rw [if_neg (by decide), if_pos rfl]
  | cons kv kvs ih =>
    intro hkvs k v hv sp rest fuel hsp hfuel
    obtain ⟨k2, v2⟩ := kv
    have hlkv := length_dumpKV false k v
    have hlf := length_dumpFields_cons false (k2, v2) kvs
    obtain ⟨f, rfl⟩ : ∃ f, fuel = f + 1 := ⟨fuel - 1, by omega⟩
    rw [parseF]
    have h1 : dumpKV false (k, v) ++
        (dumpFields false ((k2, v2) :: kvs) ++ (Char.ofNat 125 :: rest)) =
        '"' :: (escapeList false k.data ++
          ('"' :: (':' :: (' ' :: (dumpVal false v ++
            (dumpFields false ((k2, v2) :: kvs) ++ (Char.ofNat 125 :: rest))))))) := by
      rw [dumpKV]
      simp [List.append_assoc]
    rw [h1, skipWs_sp sp _ hsp (headNotWs_cons _ _ (by decide))]
    dsimp only
    rw [if_pos rfl, parseStrBody_escape]
    dsimp only
    rw [skipWs_eq_self _ (headNotWs_cons _ _ (by decide))]
    dsimp only
    rw [if_pos rfl]
    have h2 : (' ' :: (dumpVal false v ++
        (dumpFields false ((k2, v2) :: kvs) ++ (Char.ofNat 125 :: rest)))) =
        [' '] ++ (dumpVal false v ++
          (dumpFields false ((k2, v2) :: kvs) ++ (Char.ofNat 125 :: rest))) := rfl
    rw [h2]
    rw [ihv v hv [' '] _ f (Or.inr rfl)
      (by simp only [List.length_cons, List.length_nil]; omega)
      (noDigitHead_dumpFields ((k2, v2) :: kvs) rest)]
    dsimp only
    have h3 : dumpFields false ((k2, v2) :: kvs) ++ (Char.ofNat 125 :: rest) =
        ',' :: (' ' :: (dumpKV false (k2, v2) ++
          (dumpFields false kvs ++ (Char.ofNat 125 :: rest)))) := by
      rw [dumpFields]
      simp [List.append_assoc]
    rw [h3, skipWs_eq_self _ (headNotWs_cons _ _ (by decide))]
    dsimp only
    rw [if_pos rfl]
    have h4 : (' ' :: (dumpKV false (k2, v2) ++
        (dumpFields false kvs ++ (Char.ofNat 125 :: rest)))) =
        [' '] ++ (dumpKV false (k2, v2) ++
          (dumpFields false kvs ++ (Char.ofNat 125 :: rest))) := rfl
    rw [h4]
    rw [ih (fun z hz => hkvs z (List.mem_cons_of_mem _ hz)) k2 v2
      (by
        have := hkvs (k2, v2) (List.mem_cons_self _ _)
        exact this)
      [' '] rest f (Or.inr rfl)
      (by simp only [List.length_cons, List.length_nil]; omega)]

theorem parseVal_round : ∀ (N : Nat) (j : Json), sizeOf j ≤ N →
    ∀ (sp rest : List Char) (fuel : Nat), isSp sp →
      2 * (sp.length + (dumpVal false j).length) + 2 ≤ fuel → noDigitHead rest →
      parseF fuel .val (sp ++ (dumpVal false j ++ rest)) = some (.val j, rest) := by
  intro N
  induction N with
  | zero =>
    intro j hj
    exfalso
    cases j <;> simp at hj
  | succ N ihN =>
    intro j hj sp rest fuel hsp hfuel hrest
    obtain ⟨f, rfl⟩ : ∃ f, fuel = f + 1 := ⟨fuel - 1, by omega⟩
    cases j with
    | null =>
      rw [parseF]
      have h1 : dumpVal false Json.null ++ rest = 'n' :: (['u', 'l', 'l'] ++ rest) := by
        rw [dumpVal]
        rfl
      rw [h1, skipWs_sp sp _ hsp (headNotWs_cons _ _ (by decide))]
      dsimp only
      rw [if_pos rfl, expectChars_append]
      rfl
    | bool b =>
      cases b with
      | true =>
        rw [parseF]
        have h1 : dumpVal false (Json.bool true) ++ rest = 't' :: (['r', 'u', 'e'] ++ rest) := by
          rw [dumpVal]
          rfl
        rw [h1, skipWs_sp sp _ hsp (headNotWs_cons _ _ (by decide))]
        dsimp only
        rw [if_neg (by decide), if_pos rfl, expectChars_append]
        rfl
      | false =>
        rw [parseF]
        have h1 : dumpVal false (Json.bool false) ++ rest =
            'f' :: (['a', 'l', 's', 'e'] ++ rest) := by
          rw [dumpVal]
          rfl
        rw [h1, skipWs_sp sp _ hsp (headNotWs_cons _ _ (by decide))]
        dsimp only
        rw [if_neg (by decide), if_neg (by decide), if_pos rfl, expectChars_append]
        rfl
    | num n =>
      rw [parseF]
      by_cases hneg : n < 0
      · have h1 : dumpVal false (Json.num n) ++ rest =
            '-' :: (natDecChars (-n).toNat ++ rest) := by
          rw [dumpVal]
          unfold intDecChars
          rw [if_pos hneg]
          rfl
        rw [h1, skipWs_sp sp _ hsp (headNotWs_cons _ _ (by decide))]
        dsimp only
        rw [if_neg (by decide), if_neg (by decide), if_neg (by decide), if_neg (by decide),
          if_neg (by decide), if_neg (by decide), if_pos (Or.inl rfl)]
        have h2 : '-' :: (natDecChars (-n).toNat ++ rest) = intDecChars n ++ rest := by
          unfold intDecChars
          rw [if_pos hneg]
          rfl
        rw [h2, parseNumber_round n rest hrest]
        rfl
      · obtain ⟨c, tl, hct, hc1, hc2⟩ := natDecChars_head_digit n.toNat
        obtain ⟨g1, g2, g3, g4, g5, g6⟩ := digit_not_special c hc1 hc2
        have h1 : dumpVal false (Json.num n) ++ rest = c :: (tl ++ rest) := by
          rw [dumpVal]
          unfold intDecChars
          rw [if_neg hneg, hct]
          rfl
        rw [h1, skipWs_sp sp _ hsp (headNotWs_cons _ _
          (headByteP_facts c (Or.inr (Or.inr (Or.inr (Or.inr (Or.inr (Or.inr
            (Or.inr ⟨hc1, hc2⟩)))))))).1)]
        dsimp only
        rw [if_neg g1, if_neg g2, if_neg g3, if_neg g4, if_neg g5, if_neg g6,
          if_pos (Or.inr ⟨hc1, hc2⟩)]
        have h2 : c :: (tl ++ rest) = intDecChars n ++ rest := by
          unfold intDecChars
          rw [if_neg hneg, hct]
          rfl
        rw [h2, parseNumber_round n rest hrest]
        rfl
    | str s =>
      rw [parseF]
      have h1 : dumpVal false (Json.str s) ++ rest =
          '"' :: (escapeList false s.data ++ ('"' :: rest)) := by
        rw [dumpVal]
        simp [List.append_assoc]
      rw [h1, skipWs_sp sp _ hsp (headNotWs_cons _ _ (by decide))]
      dsimp only
      rw [if_neg (by decide), if_neg (by decide), if_neg (by decide), if_pos rfl,
        parseStrBody_escape]
      rfl
    | arr xs =>
      cases xs with
      | nil =>
        rw [parseF]
        have h1 : dumpVal false (Json.arr []) ++ rest = '[' :: (']' :: rest) := by
          rw [dumpVal]
          rfl
        rw [h1, skipWs_sp sp _ hsp (headNotWs_cons _ _ (by decide))]
        dsimp only
        rw [if_neg (by decide), if_neg (by decide), if_neg (by decide), if_neg (by decide),
          if_pos rfl]
        rw [skipWs_eq_self _ (headNotWs_cons _ _ (by decide))]
        dsimp only
        rw [if_pos rfl]
      | cons x xs =>
        rw [parseF]
        obtain ⟨c, cs, hdx, hhx⟩ := dumpVal_head false x
        obtain ⟨w1, w2, w3, w4, w5⟩ := headByteP_facts c hhx
        have hlen := length_dumpVal_arr_cons false x xs
        have hx : sizeOf x ≤ N := by
          simp only [Json.arr.sizeOf_spec, List.cons.sizeOf_spec] at hj
          omega
        have hxs : ∀ y ∈ xs, sizeOf y ≤ N := by
          intro y hy
          have h1 := List.sizeOf_lt_of_mem hy
          simp only [Json.arr.sizeOf_spec, List.cons.sizeOf_spec] at hj
          omega
        have h1 : dumpVal false (Json.arr (x :: xs)) ++ rest =
            '[' :: (c :: (cs ++ (dumpItems false xs ++ (']' :: rest)))) := by
          rw [dumpVal, hdx]
          simp [List.append_assoc]
        rw [h1, skipWs_sp sp _ hsp (headNotWs_cons _ _ (by decide))]
        dsimp only
        rw [if_neg (by decide), if_neg (by decide), if_neg (by decide), if_neg (by decide),
          if_pos rfl]
        rw [skipWs_eq_self _ (headNotWs_cons _ _ w1)]
        dsimp only
        rw [if_neg w2]
        have h2 : c :: (cs ++ (dumpItems false xs ++ (']' :: rest))) =
            dumpVal false x ++ (dumpItems false xs ++ (']' :: rest)) := by
          rw [hdx]
          rfl
        rw [h2]
        have hitems := parseItems_round N ihN xs hxs x hx [] rest f (Or.inl rfl)
          (by simp only [List.length_nil]; omega)
        rw [List.nil_append] at hitems
        rw [hitems]
    | obj kvs =>
      cases kvs with
      | nil =>
        rw [parseF]
        have h1 : dumpVal false (Json.obj []) ++ rest =
            Char.ofNat 123 :: (Char.ofNat 125 :: rest) := by
          rw [dumpVal]
          rfl
        rw [h1, skipWs_sp sp _ hsp (headNotWs_cons _ _ (by decide))]
        dsimp only
        rw [if_neg (by decide), if_neg (by decide), if_neg (by decide), if_neg (by decide),
          if_neg (by decide), if_pos rfl]
        rw [skipWs_eq_self _ (headNotWs_cons _ _ (by decide))]
        dsimp only
        rw [if_pos rfl]
      | cons kv kvs =>
        rw [parseF]
        obtain ⟨k, v⟩ := kv
        have hlen := length_dumpVal_obj_cons false (k, v) kvs
        have hv : sizeOf v ≤ N := by
          simp only [Json.obj.sizeOf_spec, List.cons.sizeOf_spec, Prod.mk.sizeOf_spec] at hj
          omega
        have hkvs : ∀ kv2 ∈ kvs, sizeOf kv2.2 ≤ N := by
          intro kv2 hk2
          have h1 := List.sizeOf_lt_of_mem hk2
          obtain ⟨a, b⟩ := kv2
          simp only [Json.obj.sizeOf_spec, List.cons.sizeOf_spec, Prod.mk.sizeOf_spec] at hj h1
          simp only [Prod.mk.sizeOf_spec]
          omega
        have h1 : dumpVal false (Json.obj ((k, v) :: kvs)) ++ rest =
            Char.ofNat 123 :: ('"' :: ((escapeList false k.data ++
              ('"' :: ':' :: ' ' :: dumpVal false v)) ++
                (dumpFields false kvs ++ (Char.ofNat 125 :: rest)))) := by
          rw [dumpVal, dumpKV]
          simp [List.append_assoc]
        rw [h1, skipWs_sp sp _ hsp (headNotWs_cons _ _ (by decide))]
        dsimp only
        rw [if_neg (by decide), if_neg (by decide), if_neg (by decide), if_neg (by decide),
          if_neg (by decide), if_pos rfl]
        rw [skipWs_eq_self _ (headNotWs_cons _ _ (by decide))]
        dsimp only
        rw [if_neg (by decide)]
        have h2 : '"' :: ((escapeList false k.data ++
            ('"' :: ':' :: ' ' :: dumpVal false v)) ++
              (dumpFields false kvs ++ (Char.ofNat 125 :: rest))) =
            dumpKV false (k, v) ++ (dumpFields false kvs ++ (Char.ofNat 125 :: rest)) := by
          rw [dumpKV]
          simp [List.append_assoc]
        rw [h2]
        have hfields := parseFields_round N ihN kvs hkvs k v hv [] rest f (Or.inl rfl)
          (by simp only [List.length_nil]; omega)
        rw [List.nil_append] at hfields
        rw [hfields]

/-- The `json.load` / `json.dumps(ensure_ascii=False)` round trip. -/
theorem jsonLoads_dumpVal (j : Json) : jsonLoads (dumpVal false j) = some j := by
  have h := parseVal_round (sizeOf j) j (Nat.le_refl _) [] [] (2 * (dumpVal false j).length + 2)
    (Or.inl rfl) (by simp only [List.length_nil]; omega) trivial
  rw [List.nil_append, List.append_nil] at h
  unfold jsonLoads
  rw [h]
  rfl

/-! ### The `Message` connection state machine

Shallow embedding of the `Message` class kept at the bottom of
`btu/btu_api/scheduler.py` (the realpython-style non-blocking client).
Buffers are byte lists, the selector registration is a mode field, and
exceptions raised inside a callback are `Except.error` values. -/

/-- `sys.byteorder` on the deployment platforms (x86-64/aarch64). -/
def sys_byteorder : String := "little"

/-- `struct.pack(">H", n)`: two bytes, big endian; `struct.error` (here
`none`) when the value does not fit. -/
def pack16 (n : Nat) : Option (List Nat) :=
  if n < 65536 then some [n / 256, n % 256] else none

/-- `struct.unpack(">H", bytes([b0, b1]))[0]`. -/
def unpack16 (b0 b1 : Nat) : Nat := b0 * 256 + b1

/-- `Message._json_encode(obj, encoding)`:
`json.dumps(obj, ensure_ascii=False).encode(encoding)`.  Only the
`utf-8` codec — the one the module ever passes — is modelled. -/
def msg_json_encode (obj : Json) (encoding : String) : Option (List Nat) :=
  if encoding = "utf-8" then some (utf8Encode (dumpVal false obj)) else none

/-- `Message._json_decode(json_bytes, encoding)`: decode the bytes with
the given codec and `json.load` the text.  Only the `utf-8` codec is
modelled; a decode or parse failure is `none` (the raised exception). -/
def msg_json_decode (bs : List Nat) (encoding : String) : Option Json :=
  if encoding = "utf-8" then
    match utf8Decode bs with
    | some cs => jsonLoads cs
    | none => none
  else none

/-- `Message._create_message(content_bytes, content_type,
content_encoding)`: the Frame Codec encoder.  `none` is the `struct.error`
raised when the serialized header does not fit the 2-byte length. -/
def create_message (content_bytes : List Nat) (content_type content_encoding : String) :
    Option (List Nat) :=
  match msg_json_encode (.obj [
      ("byteorder", .str sys_byteorder),
      ("content-type", .str content_type),
      ("content-encoding", .str content_encoding),
      ("content-length", .num (content_bytes.length : Int))]) "utf-8" with
  | some jsonheader_bytes =>
    match pack16 jsonheader_bytes.length with
    | some message_hdr => some (message_hdr ++ jsonheader_bytes ++ content_bytes)
    | none => none
  | none => none

/-- Selector registration modes, as `_set_selector_events_mask` accepts. -/
inductive SelMode where
  | r
  | w
  | rw
  deriving DecidableEq

/-- A decoded response: a JSON value for `text/json`, raw bytes for any
other content type. -/
inductive RespVal where
  | jsonR (j : Json)
  | rawR (bs : List Nat)

/-- The request dict held by a client `Message`: its content (JSON for
`text/json`, raw bytes otherwise), content type and encoding. -/
structure PyRequest where
  rcontent : Json ⊕ List Nat
  rtype : String
  rencoding : String

/-- The mutable state of a `Message` object. -/
structure PyMessage where
  recv_buffer : List Nat
  send_buffer : List Nat
  request_queued : Bool
  jsonheader_len : Option Nat
  jsonheader : Option (List (String × Json))
  response : Option RespVal
  selector_mode : SelMode
  unregistered : Bool
  sock_closed : Bool
  request : PyRequest

/-- Python exceptions the state machine can raise. -/
inductive PErr where
  | peerClosed
  | valueError (msg : String)
  | jsonError
  | typeError
  | keyError (k : String)
  | structError

/-- Lookup in the dict produced by `json.load`: for duplicate keys the
last occurrence wins, as in a Python dict built by repeated assignment. -/
def dictGet (kvs : List (String × Json)) (k : String) : Option Json :=
  match kvs with
  | [] => none
  | (k2, v) :: rest =>
    match dictGet rest k with
    | some v2 => some v2
    | none => if k2 = k then some v else none

/-- The required header keys, in the order `process_jsonheader` checks
them. -/
def requiredHeaderKeys : List String :=
  ["byteorder", "content-length", "content-type", "content-encoding"]

/-- The first required key the decoded header is missing, if any
(`reqhdr not in self.jsonheader`). -/
def firstMissingKey (kvs : List (String × Json)) : List String → Option String
  | [] => none
  | k :: ks => if kvs.any (fun kv => kv.1 == k) then firstMissingKey kvs ks else some k

/-- `Message.close()`: unregister from the selector and close the socket
(the source tolerates failures of either; the state effect is this). -/
def close_message (m : PyMessage) : PyMessage :=
  { m with unregistered := true, sock_closed := true }

/-- `Message.process_protoheader()`: once two bytes are buffered, consume
them as the big-endian header length. -/
def process_protoheader (m : PyMessage) : PyMessage :=
  match m.recv_buffer with
  | b0 :: b1 :: rest =>
    { m with jsonheader_len := some (unpack16 b0 b1), recv_buffer := rest }
  | _ => m

/-- `Message.process_jsonheader()`: once `jsonheader_len` bytes are
buffered, decode them as the UTF-8 JSON header and check the required
keys, raising `ValueError` on the first missing one.  (`read` only calls
this when the length is set; a non-dict header fails the membership
checks with a `TypeError`.) -/
def process_jsonheader (m : PyMessage) : Except PErr PyMessage :=
  match m.jsonheader_len with
  | none => Except.error .typeError
  | some hdrlen =>
    if hdrlen ≤ m.recv_buffer.length then
      match msg_json_decode (m.recv_buffer.take hdrlen) "utf-8" with
      | none => Except.error .jsonError
      | some (.obj kvs) =>
        match firstMissingKey kvs requiredHeaderKeys with
        | some k => Except.error (.valueError ("Missing required header " ++ k))
        | none =>
          Except.ok { m with jsonheader := some kvs, recv_buffer := m.recv_buffer.drop hdrlen }
      | some _ => Except.error .typeError
    else Except.ok m

/-- A Python slice bound `buf[:i]` / `buf[i:]` for an `int` index `i`
(negative indices count from the end). -/
def pyIdx (len : Nat) (i : Int) : Nat :=
  if 0 ≤ i then min i.toNat len else len - min (-i).toNat len

/-- `Message.process_response()`: wait until `content-length` bytes are
buffered, slice them off, decode per `content-type`, and close. -/
def process_response (m : PyMessage) : Except PErr PyMessage :=
  match m.jsonheader with
  | none => Except.error .typeError
  | some kvs =>
    match dictGet kvs "content-length" with
    | none => Except.error (.keyError "content-length")
    | some (.num content_len) =>
      if ¬ (content_len ≤ (m.recv_buffer.length : Int)) then Except.ok m
      else
        let cut := pyIdx m.recv_buffer.length content_len
        let data := m.recv_buffer.take cut
        let m2 := { m with recv_buffer := m.recv_buffer.drop cut }
        match dictGet kvs "content-type" with
        | none => Except.error (.keyError "content-type")
        | some (.str ct) =>
          if ct = "text/json" then
            match dictGet kvs "content-encoding" with
            | none => Except.error (.keyError "content-encoding")
            | some (.str enc) =>
              match msg_json_decode data enc with
              | some j => Except.ok (close_message { m2 with response := some (.jsonR j) })
              | none => Except.error .jsonError
            | some _ => Except.error .typeError
          else Except.ok (close_message { m2 with response := some (.rawR data) })
        | some _ => Except.ok (close_message { m2 with response := some (.rawR data) })
    | some _ => Except.error .typeError

/-- Truthiness of `self.jsonheader` (`if self.jsonheader:`): a dict that
is set and non-empty. -/
def headerTruthy : Option (List (String × Json)) → Bool
  | none => false
  | some kvs => ¬ kvs.isEmpty

/-- `Message._read()` after `sock.recv` returned `data`: empty data on a
readable socket means the peer closed (`RuntimeError`); a
`BlockingIOError` simply delivers no event at all and is therefore not a
step of this relation. -/
def msg_read_data (m : PyMessage) (data : List Nat) : Except PErr PyMessage :=
  if data = [] then Except.error .peerClosed
  else Except.ok { m with recv_buffer := m.recv_buffer ++ data }

/-- `Message.read()` for one readiness event that delivered `data`: run
`_read`, then each of the three parse stages under the source's guards
(`jsonheader_len is None`, `jsonheader is None`, the truthiness test
`if self.jsonheader:` — false for `None` and for an empty dict — and
`response is None`). -/
def msg_read (m : PyMessage) (data : List Nat) : Except PErr PyMessage :=
  match msg_read_data m data with
  | Except.error e => Except.error e
  | Except.ok m1 =>
    let m2 :=
      match m1.jsonheader_len with
      | none => process_protoheader m1
      | some _ => m1
    match (match m2.jsonheader_len, m2.jsonheader with
           | some _, none => process_jsonheader m2
           | _, _ => Except.ok m2) with
    | Except.error e => Except.error e
    | Except.ok m3 =>
      match m3.jsonheader, m3.response with
      | some [], none => Except.ok m3
      | some _, none => process_response m3
      | _, _ => Except.ok m3

/-- The content bytes `queue_request` computes from the request dict. -/
def requestContentBytes (req : PyRequest) : Except PErr (List Nat) :=
  if req.rtype = "text/json" then
    match req.rcontent with
    | .inl j =>
      match msg_json_encode j req.rencoding with
      | some bs => Except.ok bs
      | none => Except.error .typeError
    | .inr _ => Except.error .typeError
  else
    match req.rcontent with
    | .inr bs => Except.ok bs
    | .inl _ => Except.error .typeError

/-- `Message.queue_request()`. -/
def queue_request (m : PyMessage) : Except PErr PyMessage :=
  match requestContentBytes m.request with
  | Except.error e => Except.error e
  | Except.ok content_bytes =>
    match create_message content_bytes m.request.rtype m.request.rencoding with
    | some message =>
      Except.ok { m with send_buffer := m.send_buffer ++ message, request_queued := true }
    | none => Except.error .structError

/-- `Message._set_selector_events_mask(mode)`. -/
def set_selector_events_mask (m : PyMessage) (mode : SelMode) : PyMessage :=
  { m with selector_mode := mode }

/-- `Message._write()` for one send attempt; `sent` is what `sock.send`
returned (`none` models a `BlockingIOError`, which is passed over). -/
def msg_write_once (m : PyMessage) (sent : Option Nat) : PyMessage :=
  if m.send_buffer = [] then m
  else
    match sent with
    | none => m
    | some n => { m with send_buffer := m.send_buffer.drop n }

/-- `Message.write()` for one write-readiness event. -/
def msg_write (m : PyMessage) (sent : Option Nat) : Except PErr PyMessage :=
  match (match m.request_queued with
         | false => queue_request m
         | true => Except.ok m) with
  | Except.error e => Except.error e
  | Except.ok m1 =>
    let m2 := msg_write_once m1 sent
    match m2.request_queued, m2.send_buffer with
    | true, [] => Except.ok (set_selector_events_mask m2 .r)
    | _, _ => Except.ok m2

/-- A fresh `Message` (its `__init__`), registered with the given mode. -/
def init_message (req : PyRequest) (mode : SelMode) : PyMessage :=
  { recv_buffer := [], send_buffer := [], request_queued := false,
    jsonheader_len := none, jsonheader := none, response := none,
    selector_mode := mode, unregistered := false, sock_closed := false,
    request := req }

/-- Deliver a sequence of read events to the state machine. -/
def feedAll (m : PyMessage) : List (List Nat) → Except PErr PyMessage
  | [] => Except.ok m
  | c :: cs =>
    match msg_read m c with
    | Except.ok m2 => feedAll m2 cs
    | Except.error e => Except.error e

/-! ### The frame `_create_message(encode(r), "text/json", "utf-8")` and
the state of the machine after any prefix of it has been delivered. -/

/-- The payload of a `text/json` frame for content `r`. -/
def tjPayload (r : Json) : List Nat := utf8Encode (dumpVal false r)

/-- The header dict of that frame. -/
def tjKVs (r : Json) : List (String × Json) :=
  [("byteorder", .str sys_byteorder), ("content-type", .str "text/json"),
   ("content-encoding", .str "utf-8"), ("content-length", .num ((tjPayload r).length : Int))]

/-- The serialized header of that frame. -/
def tjHeaderBytes (r : Json) : List Nat := utf8Encode (dumpVal false (.obj (tjKVs r)))

/-- The whole frame, written out. -/
def tjWireRaw (r : Json) : List Nat :=
  (tjHeaderBytes r).length / 256 :: (tjHeaderBytes r).length % 256 ::
    (tjHeaderBytes r ++ tjPayload r)

/-- Its length. -/
def tjTotal (r : Json) : Nat := 2 + (tjHeaderBytes r).length + (tjPayload r).length

theorem create_message_tj (r : Json) (wire : List Nat)
    (h : create_message (tjPayload r) "text/json" "utf-8" = some wire) :
    (tjHeaderBytes r).length < 65536 ∧ wire = tjWireRaw r := by
  unfold create_message msg_json_encode pack16 at h
  rw [if_pos rfl] at h
  dsimp only at h
  by_cases hlen : (utf8Encode (dumpVal false (Json.obj
      [("byteorder", .str sys_byteorder), ("content-type", .str "text/json"),
       ("content-encoding", .str "utf-8"),
       ("content-length", .num ((tjPayload r).length : Int))]))).length < 65536
  · rw [if_pos hlen] at h
    refine ⟨hlen, ?_⟩
    have hw := h
    injection hw with hw
    rw [← hw]
    rfl
  · rw [if_neg hlen] at h
    exact absurd h (by simp)

theorem tjWireRaw_length (r : Json) : (tjWireRaw r).length = tjTotal r := by
  unfold tjWireRaw tjTotal
  simp [List.length_append]
  omega

theorem utf8EncodeChar_length_pos (c : Char) : 0 < (utf8EncodeChar c).length := by
  unfold utf8EncodeChar
  dsimp only
  split_ifs <;> simp

theorem tjPayload_pos (r : Json) : 0 < (tjPayload r).length := by
  obtain ⟨c, cs, hd, _⟩ := dumpVal_head false r
  unfold tjPayload
  rw [hd]
  show 0 < (utf8EncodeChar c ++ utf8Encode cs).length
  rw [List.length_append]
  have := utf8EncodeChar_length_pos c
  omega

theorem tj_hdr_decode (r : Json) :
    msg_json_decode (tjHeaderBytes r) "utf-8" = some (.obj (tjKVs r)) := by
  unfold msg_json_decode tjHeaderBytes
  rw [if_pos rfl, utf8Decode_encode]
  dsimp only
  rw [jsonLoads_dumpVal]

theorem tj_missing_none (r : Json) :
    firstMissingKey (tjKVs r) requiredHeaderKeys = none := rfl

theorem tj_dictGet_cl (r : Json) :
    dictGet (tjKVs r) "content-length" = some (.num ((tjPayload r).length : Int)) := rfl

theorem tj_dictGet_ct (r : Json) :
    dictGet (tjKVs r) "content-type" = some (.str "text/json") := rfl

theorem tj_dictGet_ce (r : Json) :
    dictGet (tjKVs r) "content-encoding" = some (.str "utf-8") := rfl

theorem tj_payload_decode (r : Json) :
    msg_json_decode (tjPayload r) "utf-8" = some r := by
  unfold msg_json_decode tjPayload
  rw [if_pos rfl, utf8Decode_encode]
  dsimp only
  rw [jsonLoads_dumpVal]

/-- The machine state after the first `k` bytes of the frame for `r` have
been delivered (in any chunking), for `k ≤ tjTotal r`. -/
def stateAfter (r : Json) (req : PyRequest) (mode : SelMode) (k : Nat) : PyMessage :=
  if k < 2 then
    { init_message req mode with recv_buffer := (tjWireRaw r).take k }
  else if k < 2 + (tjHeaderBytes r).length then
    { init_message req mode with
      recv_buffer := ((tjWireRaw r).drop 2).take (k - 2),
      jsonheader_len := some (tjHeaderBytes r).length }
  else if k < tjTotal r then
    { init_message req mode with
      recv_buffer := (tjPayload r).take (k - 2 - (tjHeaderBytes r).length),
      jsonheader_len := some (tjHeaderBytes r).length,
      jsonheader := some (tjKVs r) }
  else
    { init_message req mode with
      recv_buffer := [],
      jsonheader_len := some (tjHeaderBytes r).length,
      jsonheader := some (tjKVs r),
      response := some (.jsonR r),
      unregistered := true, sock_closed := true }

theorem stateAfter_zero (r : Json) (req : PyRequest) (mode : SelMode) :
    stateAfter r req mode 0 = init_message req mode := by
  unfold stateAfter
  rw [if_pos (by omega : (0:Nat) < 2)]
  rfl

theorem stageA_wait (r : Json) (m : PyMessage) (t : Nat)
    (hbuf : m.recv_buffer = (tjWireRaw r).take t) (ht : t < 2) :
    process_protoheader m = m := by
  unfold process_protoheader
  rw [hbuf]
  rcases (by omega : t = 0 ∨ t = 1) with rfl | rfl
  · rfl
  · rfl

theorem stageA_fire (r : Json) (m : PyMessage) (t : Nat)
    (hbuf : m.recv_buffer = (tjWireRaw r).take t) (h2 : 2 ≤ t) :
    process_protoheader m =
      { m with jsonheader_len := some (tjHeaderBytes r).length,
               recv_buffer := ((tjWireRaw r).drop 2).take (t - 2) } := by
  obtain ⟨t2, rfl⟩ : ∃ t2, t = t2 + 2 := ⟨t - 2, by omega⟩
  unfold process_protoheader
  rw [hbuf]
  have hW : (tjWireRaw r).take (t2 + 2) =
      (tjHeaderBytes r).length / 256 :: (tjHeaderBytes r).length % 256 ::
        (tjHeaderBytes r ++ tjPayload r).take t2 := rfl
  rw [hW]
  dsimp only
  have hup : unpack16 ((tjHeaderBytes r).length / 256) ((tjHeaderBytes r).length % 256) =
      (tjHeaderBytes r).length := by
    unfold unpack16
    omega
  rw [hup]
  have hdrop : ((tjWireRaw r).drop 2).take (t2 + 2 - 2) =
      (tjHeaderBytes r ++ tjPayload r).take t2 := rfl
  rw [hdrop]

theorem stageB_wait (r : Json) (m : PyMessage) (t : Nat)
    (hlen : m.jsonheader_len = some (tjHeaderBytes r).length)
    (hbuf : m.recv_buffer = ((tjWireRaw r).drop 2).take (t - 2))
    (h2 : 2 ≤ t) (ht : t < 2 + (tjHeaderBytes r).length) :
    process_jsonheader m = .ok m := by
  unfold process_jsonheader
  rw [hlen]
  dsimp only
  rw [if_neg (by
    rw [hbuf]
    have h1 : ((tjWireRaw r).drop 2) = tjHeaderBytes r ++ tjPayload r := rfl
    rw [h1, List.length_take, List.length_append]
    omega)]

theorem stageB_fire (r : Json) (m : PyMessage) (t : Nat)
    (hlen : m.jsonheader_len = some (tjHeaderBytes r).length)
    (hbuf : m.recv_buffer = ((tjWireRaw r).drop 2).take (t - 2))
    (h2L : 2 + (tjHeaderBytes r).length ≤ t) (htT : t ≤ tjTotal r) :
    process_jsonheader m =
      .ok { m with jsonheader := some (tjKVs r),
                   recv_buffer := (tjPayload r).take (t - 2 - (tjHeaderBytes r).length) } := by
  have hT : tjTotal r = 2 + (tjHeaderBytes r).length + (tjPayload r).length := rfl
  have h1 : ((tjWireRaw r).drop 2) = tjHeaderBytes r ++ tjPayload r := rfl
  unfold process_jsonheader
  rw [hlen]
  dsimp only
  rw [if_pos (by
    rw [hbuf, h1, List.length_take, List.length_append]
    omega)]
  have htake : m.recv_buffer.take (tjHeaderBytes r).length = tjHeaderBytes r := by
    rw [hbuf, h1, List.take_take]
    have hm : min (tjHeaderBytes r).length (t - 2) = (tjHeaderBytes r).length := by omega
    rw [hm, List.take_left]
  rw [htake, tj_hdr_decode]
  dsimp only
  rw [tj_missing_none]
  dsimp only
  have hdrop : m.recv_buffer.drop (tjHeaderBytes r).length =
      (tjPayload r).take (t - 2 - (tjHeaderBytes r).length) := by
    rw [hbuf, h1, List.drop_take, List.drop_left]
  rw [hdrop]

theorem stageC_wait (r : Json) (m : PyMessage) (t : Nat)
    (hhdr : m.jsonheader = some (tjKVs r))
    (hbuf : m.recv_buffer = (tjPayload r).take (t - 2 - (tjHeaderBytes r).length))
    (ht : t < tjTotal r) :
    process_response m = .ok m := by
  have hT : tjTotal r = 2 + (tjHeaderBytes r).length + (tjPayload r).length := rfl
  have hP := tjPayload_pos r
  unfold process_response
  rw [hhdr]
  dsimp only
  rw [tj_dictGet_cl]
  dsimp only
  rw [if_pos (by
    rw [hbuf, List.length_take]
    intro hcon
    have h2 : min (t - 2 - (tjHeaderBytes r).length) (tjPayload r).length <
        (tjPayload r).length := by omega
    omega)]

theorem stageC_fire (r : Json) (m : PyMessage)
    (hhdr : m.jsonheader = some (tjKVs r))
    (hbuf : m.recv_buffer = tjPayload r) :
    process_response m =
      .ok { m with recv_buffer := ([] : List Nat),
                   response := some (.jsonR r),
                   unregistered := true, sock_closed := true } := by
  unfold process_response
  rw [hhdr]
  dsimp only
  rw [tj_dictGet_cl]
  dsimp only
  rw [if_neg (by
    rw [hbuf]
    simp)]
  have hcut : pyIdx m.recv_buffer.length ((tjPayload r).length : Int) =
      m.recv_buffer.length := by
    unfold pyIdx
    rw [if_pos (by omega), hbuf]
    simp
  rw [hcut]
  rw [List.take_length, List.drop_length]
  rw [tj_dictGet_ct]
  dsimp only
  rw [if_pos rfl, tj_dictGet_ce]
  dsimp only
  rw [hbuf, tj_payload_decode]
  dsimp only
  rfl

/-- Delivering the next `n` bytes of the frame to `read()` advances the
machine from the `k`-byte state to the `(k+n)`-byte state. -/
theorem tj_step (r : Json) (req : PyRequest) (mode : SelMode) (k n : Nat)
    (hn : 0 < n) (hkn : k + n ≤ tjTotal r) :
    msg_read (stateAfter r req mode k) (((tjWireRaw r).drop k).take n) =
      .ok (stateAfter r req mode (k + n)) := by
  have hT : tjTotal r = 2 + (tjHeaderBytes r).length + (tjPayload r).length := rfl
  have hWlen := tjWireRaw_length r
  have hPpos := tjPayload_pos r
  have hdlen : (((tjWireRaw r).drop k).take n).length = n := by
    rw [List.length_take, List.length_drop, hWlen]
    omega
  have hdne : ((tjWireRaw r).drop k).take n ≠ [] := by
    intro hcon
    rw [hcon] at hdlen
    simp at hdlen
    omega
  have hread : ∀ m : PyMessage, msg_read_data m (((tjWireRaw r).drop k).take n) =
      .ok { m with recv_buffer := m.recv_buffer ++ ((tjWireRaw r).drop k).take n } := by
    intro m
    unfold msg_read_data
    rw [if_neg hdne]
  unfold msg_read
  rw [hread]
  by_cases hk2 : k < 2
  · -- the length prefix was not complete yet
    rw [show stateAfter r req mode k =
        { init_message req mode with recv_buffer := (tjWireRaw r).take k } from by
      unfold stateAfter
      rw [if_pos hk2]]
    dsimp only [init_message]
    rw [(List.take_add (tjWireRaw r) k n).symm]
    by_cases hkn2 : k + n < 2
    · rw [stageA_wait r _ (k + n) rfl hkn2]
      dsimp only
      rw [show stateAfter r req mode (k + n) =
          { init_message req mode with recv_buffer := (tjWireRaw r).take (k + n) } from by
        unfold stateAfter
        rw [if_pos hkn2]]
      rfl
    · rw [stageA_fire r _ (k + n) rfl (by omega)]
      dsimp only
      by_cases hkn3 : k + n < 2 + (tjHeaderBytes r).length
      · rw [stageB_wait r _ (k + n) rfl rfl (by omega) hkn3]
        dsimp only
        rw [show stateAfter r req mode (k + n) =
            { init_message req mode with
              recv_buffer := ((tjWireRaw r).drop 2).take (k + n - 2),
              jsonheader_len := some (tjHeaderBytes r).length } from by
          unfold stateAfter
          rw [if_neg (by omega), if_pos hkn3]]
        rfl
      · rw [stageB_fire r _ (k + n) rfl rfl (by omega) hkn]
        dsimp only [tjKVs]
        by_cases hkn4 : k + n < tjTotal r
        · rw [show (tjPayload r).take (k + n - 2 - (tjHeaderBytes r).length) =
              (tjPayload r).take (k + n - 2 - (tjHeaderBytes r).length) from rfl]
          rw [stageC_wait r _ (k + n) rfl rfl hkn4]
          rw [show stateAfter r req mode (k + n) =
              { init_message req mode with
                recv_buffer := (tjPayload r).take (k + n - 2 - (tjHeaderBytes r).length),
                jsonheader_len := some (tjHeaderBytes r).length,
                jsonheader := some (tjKVs r) } from by
            unfold stateAfter
            rw [if_neg (by omega), if_neg (by omega), if_pos hkn4]]
          dsimp only [tjKVs]
          rfl
        · have hflush : (tjPayload r).take (k + n - 2 - (tjHeaderBytes r).length) =
              tjPayload r := by
            rw [show k + n - 2 - (tjHeaderBytes r).length = (tjPayload r).length from by omega]
            exact List.take_length _
          rw [hflush, stageC_fire r _ rfl rfl]
          dsimp only
          rw [show stateAfter r req mode (k + n) =
              { init_message req mode with
                recv_buffer := [],
                jsonheader_len := some (tjHeaderBytes r).length,
                jsonheader := some (tjKVs r),
                response := some (.jsonR r),
                unregistered := true, sock_closed := true } from by
            unfold stateAfter
            rw [if_neg (by omega), if_neg (by omega), if_neg (by omega)]]
          dsimp only [tjKVs]
          rfl
  · by_cases hk3 : k < 2 + (tjHeaderBytes r).length
    · -- the prefix was consumed; the header was not complete yet
      rw [show stateAfter r req mode k =
          { init_message req mode with
            recv_buffer := ((tjWireRaw r).drop 2).take (k - 2),
            jsonheader_len := some (tjHeaderBytes r).length } from by
        unfold stateAfter
        rw [if_neg hk2, if_pos hk3]]
      dsimp only [init_message]
      have hdk : (tjWireRaw r).drop k = ((tjWireRaw r).drop 2).drop (k - 2) := by
        rw [List.drop_drop]
        congr 1
        omega
      rw [hdk, (List.take_add ((tjWireRaw r).drop 2) (k - 2) n).symm,
        show k - 2 + n = k + n - 2 from by omega]
      by_cases hkn3 : k + n < 2 + (tjHeaderBytes r).length
      · rw [stageB_wait r _ (k + n) rfl rfl (by omega) hkn3]
        dsimp only
        rw [show stateAfter r req mode (k + n) =
            { init_message req mode with
              recv_buffer := ((tjWireRaw r).drop 2).take (k + n - 2),
              jsonheader_len := some (tjHeaderBytes r).length } from by
          unfold stateAfter
          rw [if_neg (by omega), if_pos hkn3]]
        rfl
      · rw [stageB_fire r _ (k + n) rfl rfl (by omega) hkn]
        dsimp only [tjKVs]
        by_cases hkn4 : k + n < tjTotal r
        · rw [stageC_wait r _ (k + n) rfl rfl hkn4]
          rw [show stateAfter r req mode (k + n) =
              { init_message req mode with
                recv_buffer := (tjPayload r).take (k + n - 2 - (tjHeaderBytes r).length),
                jsonheader_len := some (tjHeaderBytes r).length,
                jsonheader := some (tjKVs r) } from by
            unfold stateAfter
            rw [if_neg (by omega), if_neg (by omega), if_pos hkn4]]
          dsimp only [tjKVs]
          rfl
        · have hflush : (tjPayload r).take (k + n - 2 - (tjHeaderBytes r).length) =
              tjPayload r := by
            rw [show k + n - 2 - (tjHeaderBytes r).length = (tjPayload r).length from by omega]
            exact List.take_length _
          rw [hflush, stageC_fire r _ rfl rfl]
          dsimp only
          rw [show stateAfter r req mode (k + n) =
              { init_message req mode with
                recv_buffer := [],
                jsonheader_len := some (tjHeaderBytes r).length,
                jsonheader := some (tjKVs r),
                response := some (.jsonR r),
                unregistered := true, sock_closed := true } from by
            unfold stateAfter
            rw [if_neg (by omega), if_neg (by omega), if_neg (by omega)]]
          dsimp only [tjKVs]
          rfl
    · -- length prefix and header consumed; awaiting the payload
      have hk4 : k < tjTotal r := by omega
      rw [show stateAfter r req mode k =
          { init_message req mode with
            recv_buffer := (tjPayload r).take (k - 2 - (tjHeaderBytes r).length),
            jsonheader_len := some (tjHeaderBytes r).length,
            jsonheader := some (tjKVs r) } from by
        unfold stateAfter
        rw [if_neg hk2, if_neg hk3, if_pos hk4]]
      dsimp only [init_message]
      have hdk : (tjWireRaw r).drop k =
          (tjPayload r).drop (k - 2 - (tjHeaderBytes r).length) := by
        have h1 : (tjWireRaw r).drop k =
            (tjHeaderBytes r ++ tjPayload r).drop (k - 2) := by
          rw [show (tjWireRaw r) = (tjHeaderBytes r).length / 256 ::
              (tjHeaderBytes r).length % 256 :: (tjHeaderBytes r ++ tjPayload r) from rfl]
          rw [show k = (k - 2) + 2 from by omega]
          rfl
        rw [h1]
        have h2 : k - 2 = (tjHeaderBytes r).length + (k - 2 - (tjHeaderBytes r).length) := by
          omega
        conv_lhs => rw [h2]
        rw [← List.drop_drop, List.drop_left]
      rw [hdk, (List.take_add (tjPayload r) (k - 2 - (tjHeaderBytes r).length) n).symm,
        show k - 2 - (tjHeaderBytes r).length + n = k + n - 2 - (tjHeaderBytes r).length
          from by omega]
      dsimp only [tjKVs]
      by_cases hkn4 : k + n < tjTotal r
      · rw [stageC_wait r _ (k + n) rfl rfl hkn4]
        rw [show stateAfter r req mode (k + n) =
            { init_message req mode with
              recv_buffer := (tjPayload r).take (k + n - 2 - (tjHeaderBytes r).length),
              jsonheader_len := some (tjHeaderBytes r).length,
              jsonheader := some (tjKVs r) } from by
          unfold stateAfter
          rw [if_neg (by omega), if_neg (by omega), if_pos hkn4]]
        dsimp only [tjKVs]
        rfl
      · have hflush : (tjPayload r).take (k + n - 2 - (tjHeaderBytes r).length) =
            tjPayload r := by
          rw [show k + n - 2 - (tjHeaderBytes r).length = (tjPayload r).length from by omega]
          exact List.take_length _
        rw [hflush, stageC_fire r _ rfl rfl]
        dsimp only
        rw [show stateAfter r req mode (k + n) =
            { init_message req mode with
              recv_buffer := [],
              jsonheader_len := some (tjHeaderBytes r).length,
              jsonheader := some (tjKVs r),
              response := some (.jsonR r),
              unregistered := true, sock_closed := true } from by
          unfold stateAfter
          rw [if_neg (by omega), if_neg (by omega), if_neg (by omega)]]
        dsimp only [tjKVs]
        rfl

/-- Feeding any chunking of a middle section of the frame advances the
machine accordingly. -/
theorem feed_chunks (r : Json) (req : PyRequest) (mode : SelMode) :
    ∀ (chunks : List (List Nat)) (k : Nat),
      (∀ c ∈ chunks, c ≠ []) →
      k + chunks.join.length ≤ tjTotal r →
      chunks.join = ((tjWireRaw r).drop k).take chunks.join.length →
      feedAll (stateAfter r req mode k) chunks =
        .ok (stateAfter r req mode (k + chunks.join.length)) := by
  intro chunks
  induction chunks with
  | nil =>
    intro k _ _ _
    simp [feedAll]
  | cons c cs ih =>
    intro k hne hlen hjoin
    have hWlen := tjWireRaw_length r
    have hcne : c ≠ [] := hne c (List.mem_cons_self _ _)
    have hclen : 0 < c.length := List.length_pos.mpr hcne
    have hjlen : ((c :: cs).join).length = c.length + cs.join.length := by
      simp
    rw [hjlen] at hlen
    have hjoin2 : c ++ cs.join =
        ((tjWireRaw r).drop k).take c.length ++
          ((tjWireRaw r).drop (k + c.length)).take cs.join.length := by
      have h1 : (c :: cs).join = c ++ cs.join := by simp
      rw [h1] at hjoin
      rw [List.length_append] at hjoin
      rw [hjoin, List.take_add]
      rw [List.drop_drop]
    have hlen1 : c.length = (((tjWireRaw r).drop k).take c.length).length := by
      rw [List.length_take, List.length_drop, hWlen]
      omega
    obtain ⟨hc, hcs⟩ := List.append_inj hjoin2 hlen1
    have hstep : msg_read (stateAfter r req mode k) c =
        .ok (stateAfter r req mode (k + c.length)) := by
      conv_lhs => rw [hc]
      exact tj_step r req mode k c.length hclen (by omega)
    show (match msg_read (stateAfter r req mode k) c with
      | Except.ok m2 => feedAll m2 cs
      | Except.error e => Except.error e) = _
    rw [hstep]
    dsimp only
    rw [ih (k + c.length) (fun z hz => hne z (List.mem_cons_of_mem _ hz)) (by omega) hcs]
    rw [hjlen, ← Nat.add_assoc]

/-! ### The blocking request client `SchedulerAPI`

`_send_message_to_scheduler_socket` is modelled as a pure function over an
environment describing the outcome of each external operation (the
configuration lookup, the path check, socket creation, connect, send,
recv), returning the Python result — a raised exception is
`Except.error` — together with the trace of socket events performed. -/

/-- The exceptions the client path can produce. -/
inductive PyExc where
  | typeError (msg : String)
  | valueError (msg : String)
  | fileNotFound (msg : String)
  | unicodeDecodeError
  deriving DecidableEq

/-- Python values the client returns: `None`, a `bytes` object, or a
`str`. -/
inductive PyVal where
  | pynone
  | pybytes (bs : List Nat)
  | pystr (s : String)
  deriving DecidableEq

/-- Socket-level events, in the order the client performs them. -/
inductive SockEvent where
  | created
  | connected
  | sentData (bs : List Nat)
  | closed
  deriving DecidableEq

/-- Outcomes of the external operations
`_send_message_to_scheduler_socket` performs. -/
structure SocketEnv where
  /-- `frappe.db.get_single_value("BTU Configuration", "path_to_btu_scheduler_uds")`. -/
  config_socket_path : Option String
  /-- `pathlib.Path(socket_str).exists()`. -/
  path_exists : Bool
  /-- Exception message raised by `socket.socket` / `settimeout`, if any. -/
  create_ok : Option String
  /-- Exception message raised by `connect`, if any. -/
  connect_ok : Option String
  /-- What `send` returned (a byte count) or raised. -/
  send_result : Except String Nat
  /-- What `recv(2048)` returned (bytes) or raised. -/
  recv_result : Except String (List Nat)

/-- `SchedulerAPI._send_message_to_scheduler_socket(message)` (the
`isinstance(message, str)` guard is statically satisfied by the typed
argument).  Returns the result and the socket-event trace. -/
def send_message_to_scheduler_socket (env : SocketEnv) (message : String) :
    Except PyExc PyVal × List SockEvent :=
  match env.config_socket_path with
  | none =>
    (Except.error (.valueError
      "BTU Configuration is missing a path to the Unix Domain Socket for the scheduler daemon."),
     [])
  | some socket_str =>
    if socket_str = "" then
      (Except.error (.valueError
        "BTU Configuration is missing a path to the Unix Domain Socket for the scheduler daemon."),
       [])
    else if env.path_exists = false then
      (Except.error (.fileNotFound ("Path to socket file does not exists: " ++ socket_str)), [])
    else
      match env.create_ok with
      | some ex =>
        (Except.ok (.pystr ("Exception while connecting to BTU Scheduler socket: " ++ ex)), [])
      | none =>
        match env.connect_ok with
        | some ex =>
          (Except.ok (.pystr ("Exception while connecting to BTU Scheduler socket: " ++ ex)),
           [.created])
        | none =>
          let message_bytes := utf8Encode message.data
          match env.send_result with
          | .error _ =>
            (Except.ok .pynone, [.created, .connected, .sentData message_bytes, .closed])
          | .ok _ =>
            match env.recv_result with
            | .error _ =>
              (Except.ok .pynone, [.created, .connected, .sentData message_bytes, .closed])
            | .ok uds_response =>
              if uds_response = [] then
                (Except.ok (.pybytes []),
                 [.created, .connected, .sentData message_bytes, .closed])
              else
                match utf8Decode uds_response with
                | some cs =>
                  (Except.ok (.pystr (String.mk cs)),
                   [.created, .connected, .sentData message_bytes, .closed])
                | none =>
                  (Except.error .unicodeDecodeError,
                   [.created, .connected, .sentData message_bytes, .closed])

/-- The `RequestType` enum. -/
inductive RequestType where
  | create_task_schedule
  | ping
  | cancel_task_schedule
  deriving DecidableEq

/-- `request_type.name` of the enum member. -/
def RequestType.pyName : RequestType → String
  | .create_task_schedule => "create_task_schedule"
  | .ping => "ping"
  | .cancel_task_schedule => "cancel_task_schedule"

/-- `SchedulerAPI.send_message(request_type, content)`: the
`isinstance(request_type, RequestType)` guard is statically satisfied;
the request dict is serialized with `json.dumps` (default
`ensure_ascii=True`). -/
def send_message (env : SocketEnv) (request_type : RequestType) (content : Json) :
    Except PyExc PyVal × List SockEvent :=
  let new_message : Json :=
    .obj [("request_type", .str request_type.pyName), ("request_content", content)]
  let message_as_string := String.mk (dumpVal true new_message)
  send_message_to_scheduler_socket env message_as_string

/-- `SchedulerAPI.send_ping()`. -/
def send_ping (env : SocketEnv) : Except PyExc PyVal × List SockEvent :=
  send_message env .ping .null

/-- `SchedulerAPI.reload_task_schedule(task_schedule_id)`. -/
def reload_task_schedule (env : SocketEnv) (task_schedule_id : String) :
    Except PyExc PyVal × List SockEvent :=
  send_message env .create_task_schedule (.str task_schedule_id)

/-- `SchedulerAPI.cancel_task_schedule(task_schedule_id)`. -/
def cancel_task_schedule (env : SocketEnv) (task_schedule_id : String) :
    Except PyExc PyVal × List SockEvent :=
  send_message env .cancel_task_schedule (.str task_schedule_id)

/-- A representative environment in which every external operation
succeeds and the daemon replies with `pong` JSON. -/
def envHappy : SocketEnv :=
  { config_socket_path := some "/tmp/btu-scheduler.sock",
    path_exists := true,
    create_ok := none,
    connect_ok := none,
    send_result := .ok 46,
    recv_result := .ok (utf8Encode (dumpVal false (.obj [("result", .str "pong")]))) }

/-! ### Concrete fixtures for witnesses -/

/-- The daemon's scenario-A reply value. -/
def pongJson : Json := .obj [("result", .str "pong")]

/-- A well-formed request dict for a client `Message`. -/
def dummyReq : PyRequest := { rcontent := .inl .null, rtype := "text/json", rencoding := "utf-8" }

/-- The frame `_create_message(encode(pongJson), "text/json", "utf-8")`. -/
def pongWire : List Nat :=
  (create_message (utf8Encode (dumpVal false pongJson)) "text/json" "utf-8").getD []

theorem stateAfter_total_fields (r : Json) (req : PyRequest) (mode : SelMode) :
    (stateAfter r req mode (tjTotal r)).response = some (.jsonR r) ∧
    (stateAfter r req mode (tjTotal r)).recv_buffer = [] := by
  have hP := tjPayload_pos r
  have hT : tjTotal r = 2 + (tjHeaderBytes r).length + (tjPayload r).length := rfl
  unfold stateAfter
  rw [if_neg (by omega), if_neg (by omega), if_neg (by omega)]
  exact ⟨rfl, rfl⟩

/-- C3: encoding any `text/json`-encodable content `r` with
`_create_message` and then running the full decode pipeline of `read()`
(consume the 2-byte prefix, decode the JSON metadata header, decode
exactly `content-length` payload bytes) on the resulting frame reproduces
`r` exactly, leaving the buffer empty. -/
theorem claim_C3_roundtrip (r : Json) (req : PyRequest) (mode : SelMode) (wire : List Nat)
    (hw : create_message (utf8Encode (dumpVal false r)) "text/json" "utf-8" = some wire) :
    ∃ m2, msg_read (init_message req mode) wire = .ok m2 ∧
      m2.response = some (.jsonR r) ∧ m2.recv_buffer = [] := by
  obtain ⟨hlt, hwr⟩ := create_message_tj r wire hw
  subst hwr
  have hP := tjPayload_pos r
  have hT : tjTotal r = 2 + (tjHeaderBytes r).length + (tjPayload r).length := rfl
  have h := tj_step r req mode 0 (tjTotal r) (by omega) (by omega)
  rw [stateAfter_zero] at h
  have h2 : ((tjWireRaw r).drop 0).take (tjTotal r) = tjWireRaw r := by
    rw [List.drop_zero, ← tjWireRaw_length, List.take_length]
  rw [h2, Nat.zero_add] at h
  exact ⟨stateAfter r req mode (tjTotal r), h, (stateAfter_total_fields r req mode).1,
    (stateAfter_total_fields r req mode).2⟩

set_option maxRecDepth 200000 in
/-- C3 witness at the concrete `pong` content. -/
theorem claim_C3_roundtrip_witness :
    create_message (utf8Encode (dumpVal false pongJson)) "text/json" "utf-8" = some pongWire ∧
    ∃ m2, msg_read (init_message dummyReq .rw) pongWire = .ok m2 ∧
      m2.response = some (.jsonR pongJson) ∧ m2.recv_buffer = [] :=
  ⟨by rfl, claim_C3_roundtrip pongJson dummyReq .rw pongWire (by rfl)⟩

/-- C4: delivering the encoded frame for `r` to the connection state
machine split into any sequence of non-empty chunks produces exactly the
same final state — and in particular the same decoded value `r` — as
delivering all the bytes in one chunk. -/
theorem claim_C4_chunk_invariance (r : Json) (req : PyRequest) (mode : SelMode)
    (wire : List Nat) (chunks : List (List Nat))
    (hw : create_message (utf8Encode (dumpVal false r)) "text/json" "utf-8" = some wire)
    (hne : ∀ c ∈ chunks, c ≠ []) (hjoin : chunks.join = wire) :
    ∃ mN, feedAll (init_message req mode) chunks = .ok mN ∧
      feedAll (init_message req mode) [wire] = .ok mN ∧
      mN.response = some (.jsonR r) := by
  obtain ⟨hlt, hwr⟩ := create_message_tj r wire hw
  subst hwr
  have hWlen := tjWireRaw_length r
  have hLc : chunks.join.length = tjTotal r := by rw [hjoin, hWlen]
  have h1 := feed_chunks r req mode chunks 0 hne (by omega)
    (by rw [List.drop_zero, hjoin]; exact (List.take_length _).symm)
  rw [stateAfter_zero, hLc, Nat.zero_add] at h1
  have hWne : tjWireRaw r ≠ [] := by
    intro hcon
    rw [hcon] at hWlen
    have hP := tjPayload_pos r
    have hT : tjTotal r = 2 + (tjHeaderBytes r).length + (tjPayload r).length := rfl
    simp at hWlen
    omega
  have hL1 : ([tjWireRaw r] : List (List Nat)).join.length = tjTotal r := by
    simp [hWlen]
  have h2 := feed_chunks r req mode [tjWireRaw r] 0
    (by intro c hc; simp at hc; subst hc; exact hWne)
    (by rw [hL1]; omega)
    (by rw [List.drop_zero]; simp)
  rw [stateAfter_zero, hL1, Nat.zero_add] at h2
  exact ⟨stateAfter r req mode (tjTotal r), h1, h2, (stateAfter_total_fields r req mode).1⟩

set_option maxRecDepth 200000 in
/-- C4 witness: the `pong` frame delivered in three fragments equals the
single-chunk delivery. -/
theorem claim_C4_chunk_invariance_witness :
    (∀ c ∈ [pongWire.take 1, (pongWire.drop 1).take 5, pongWire.drop 6], c ≠ []) ∧
    [pongWire.take 1, (pongWire.drop 1).take 5, pongWire.drop 6].join = pongWire ∧
    ∃ mN, feedAll (init_message dummyReq .w)
        [pongWire.take 1, (pongWire.drop 1).take 5, pongWire.drop 6] = .ok mN ∧
      feedAll (init_message dummyReq .w) [pongWire] = .ok mN ∧
      mN.response = some (.jsonR pongJson) :=
  ⟨by decide, by decide,
   claim_C4_chunk_invariance pongJson dummyReq .w pongWire _ (by rfl) (by decide) (by decide)⟩

/-- C5: with the metadata header parsed, `process_response` never
consumes or decodes the payload while the buffer holds fewer than
`content-length` bytes — it waits, leaving the state unchanged — and when
a frame completes, exactly `content-length` payload bytes are consumed
from the buffer. -/
theorem claim_C5_length_authority (m : PyMessage) (kvs : List (String × Json)) (clen : Int)
    (hhdr : m.jsonheader = some kvs) (hresp : m.response = none)
    (hcl : dictGet kvs "content-length" = some (.num clen)) :
    ((m.recv_buffer.length : Int) < clen → process_response m = .ok m) ∧
    (0 ≤ clen → ∀ m2, process_response m = .ok m2 → m2.response ≠ none →
      clen ≤ (m.recv_buffer.length : Int) ∧
      m2.recv_buffer = m.recv_buffer.drop clen.toNat) := by
  unfold process_response
  rw [hhdr]
  dsimp only
  rw [hcl]
  dsimp only
  constructor
  · intro hlt
    rw [if_pos (by omega : ¬ (clen ≤ (m.recv_buffer.length : Int)))]
  · intro h0 m2 hok hr2
    by_cases hge : clen ≤ (m.recv_buffer.length : Int)
    · rw [if_neg (not_not_intro hge)] at hok
      have hcut : pyIdx m.recv_buffer.length clen = clen.toNat := by
        unfold pyIdx
        rw [if_pos h0]
        omega
      rw [hcut] at hok
      refine ⟨hge, ?_⟩
      rcases hct : dictGet kvs "content-type" with _ | v
      · rw [hct] at hok
        exact absurd hok (by simp)
      · rw [hct] at hok
        cases v with
        | str ct =>
          dsimp only at hok
          by_cases htj : ct = "text/json"
          · rw [if_pos htj] at hok
            rcases hce : dictGet kvs "content-encoding" with _ | w
            · rw [hce] at hok
              exact absurd hok (by simp)
            · rw [hce] at hok
              cases w with
              | str enc =>
                dsimp only at hok
                rcases hdec : msg_json_decode (m.recv_buffer.take clen.toNat) enc with _ | j
                · rw [hdec] at hok
                  exact absurd hok (by simp)
                · rw [hdec] at hok
                  dsimp only at hok
                  injection hok with hok
                  rw [← hok]
                  rfl
              | null => dsimp only at hok; exact absurd hok (by simp)
              | bool b => dsimp only at hok; exact absurd hok (by simp)
              | num x => dsimp only at hok; exact absurd hok (by simp)
              | arr xs => dsimp only at hok; exact absurd hok (by simp)
              | obj ys => dsimp only at hok; exact absurd hok (by simp)
          · rw [if_neg htj] at hok
            injection hok with hok
            rw [← hok]
            rfl
        | null =>
          dsimp only at hok
          injection hok with hok
          rw [← hok]
          rfl
        | bool b =>
          dsimp only at hok
          injection hok with hok
          rw [← hok]
          rfl
        | num x =>
          dsimp only at hok
          injection hok with hok
          rw [← hok]
          rfl
        | arr xs =>
          dsimp only at hok
          injection hok with hok
          rw [← hok]
          rfl
        | obj ys =>
          dsimp only at hok
          injection hok with hok
          rw [← hok]
          rfl
    · rw [if_pos hge] at hok
      injection hok with hok
      rw [← hok] at hr2
      exact absurd hresp hr2

def c5state : PyMessage :=
  { recv_buffer := [1, 2, 3], send_buffer := [], request_queued := true,
    jsonheader_len := some 2,
    jsonheader := some [("content-length", .num 5),
      ("content-type", .str "application/octet-stream"),
      ("content-encoding", .str "binary"), ("byteorder", .str "little")],
    response := none, selector_mode := .r, unregistered := false, sock_closed := false,
    request := dummyReq }

/-- C5 witness: a parsed header declaring 5 content bytes with only 3
buffered waits, leaving the state unchanged. -/
theorem claim_C5_length_authority_witness :
    process_response c5state = Except.ok c5state :=
  (claim_C5_length_authority c5state _ 5 rfl rfl (by rfl)).1 (by decide)

theorem firstMissingKey_of_missing (kvs : List (String × Json)) (ks : List String) (k : String)
    (hk : k ∈ ks) (hmiss : kvs.any (fun kv => kv.1 == k) = false) :
    ∃ k2, firstMissingKey kvs ks = some k2 := by
  induction ks with
  | nil => simp at hk
  | cons k1 ks ih =>
    unfold firstMissingKey
    by_cases h1 : kvs.any (fun kv => kv.1 == k1) = true
    · rw [if_pos h1]
      rcases List.mem_cons.mp hk with rfl | hk2
      · rw [hmiss] at h1
        exact absurd h1 (by simp)
      · exact ih hk2
    · rw [if_neg h1]
      exact ⟨k1, rfl⟩

/-- C6: a metadata header that is valid JSON but lacks any one of the
four required keys (`byteorder`, `content-type`, `content-encoding`,
`content-length`) makes `process_jsonheader` raise a `ValueError` instead
of accepting the header. -/
theorem claim_C6_missing_key (kvs : List (String × Json)) (k : String) (m : PyMessage)
    (extra : List Nat)
    (hk : k ∈ requiredHeaderKeys) (hmiss : kvs.any (fun kv => kv.1 == k) = false)
    (hlen : m.jsonheader_len = some (utf8Encode (dumpVal false (.obj kvs))).length)
    (hbuf : m.recv_buffer = utf8Encode (dumpVal false (.obj kvs)) ++ extra) :
    ∃ s, process_jsonheader m = .error (.valueError s) := by
  unfold process_jsonheader
  rw [hlen]
  dsimp only
  rw [if_pos (by rw [hbuf, List.length_append]; omega)]
  rw [hbuf, List.take_left]
  unfold msg_json_decode
  rw [if_pos rfl, utf8Decode_encode]
  dsimp only
  rw [jsonLoads_dumpVal]
  dsimp only
  obtain ⟨k2, hk2⟩ := firstMissingKey_of_missing kvs requiredHeaderKeys k hk hmiss
  rw [hk2]
  exact ⟨_, rfl⟩

set_option maxRecDepth 200000 in
/-- C6 witness: a header holding every required key except `byteorder` is
rejected. -/
theorem claim_C6_missing_key_witness :
    ∃ s, process_jsonheader
      { recv_buffer := utf8Encode (dumpVal false (.obj [("content-length", .num 0),
          ("content-type", .str "text/json"), ("content-encoding", .str "utf-8")])) ++ [],
        send_buffer := [], request_queued := true,
        jsonheader_len := some (utf8Encode (dumpVal false (.obj [("content-length", .num 0),
          ("content-type", .str "text/json"), ("content-encoding", .str "utf-8")]))).length,
        jsonheader := none, response := none, selector_mode := .r,
        unregistered := false, sock_closed := false, request := dummyReq } =
      .error (.valueError s) :=
  claim_C6_missing_key
    [("content-length", .num 0), ("content-type", .str "text/json"),
     ("content-encoding", .str "utf-8")]
    "byteorder" _ [] (by decide) (by decide) rfl rfl

/-! ### Client claims -/

/-- An environment in which the socket is created but `connect` raises. -/
def envConnFail : SocketEnv :=
  { config_socket_path := some "/tmp/btu-scheduler.sock", path_exists := true,
    create_ok := none, connect_ok := some "[Errno 111] Connection refused",
    send_result := .ok 0, recv_result := .ok [] }

/-- An environment whose configured socket path is absent on disk. -/
def envNoFile : SocketEnv :=
  { config_socket_path := some "/tmp/missing.sock", path_exists := false,
    create_ok := none, connect_ok := none, send_result := .ok 0, recv_result := .ok [] }

/-- An environment in which the daemon closes without writing: `recv`
returns zero bytes. -/
def envRecvEmpty : SocketEnv :=
  { config_socket_path := some "/tmp/btu-scheduler.sock", path_exists := true,
    create_ok := none, connect_ok := none, send_result := .ok 4, recv_result := .ok [] }

/-- C1 counterexample: when `connect` raises, the already-created socket
is never closed — the trace holds `created` but no `closed` event, so the
"socket is still closed in all cases" part of the claim fails. -/
theorem claim_C1_counterexample :
    (send_message_to_scheduler_socket envConnFail "ping").2 = [SockEvent.created] ∧
    SockEvent.closed ∉ (send_message_to_scheduler_socket envConnFail "ping").2 := by
  exact ⟨rfl, by decide⟩

/-- C1 (amended): every failure during connect, send or receive is caught
and converted into a value returned normally to the caller; on send and
receive failures the socket is closed, but on a connect failure the
socket that was opened is left unclosed (only `created` is traced). -/
theorem claim_C1_amended (env : SocketEnv) (msg p : String)
    (hcfg : env.config_socket_path = some p) (hne : p ≠ "") (hex : env.path_exists = true) :
    (∀ ex, env.create_ok = none → env.connect_ok = some ex →
      send_message_to_scheduler_socket env msg =
        (Except.ok (.pystr ("Exception while connecting to BTU Scheduler socket: " ++ ex)),
         [.created])) ∧
    (∀ e, env.create_ok = none → env.connect_ok = none → env.send_result = .error e →
      send_message_to_scheduler_socket env msg =
        (Except.ok .pynone,
         [.created, .connected, .sentData (utf8Encode msg.data), .closed])) ∧
    (∀ e n, env.create_ok = none → env.connect_ok = none → env.send_result = .ok n →
      env.recv_result = .error e →
      send_message_to_scheduler_socket env msg =
        (Except.ok .pynone,
         [.created, .connected, .sentData (utf8Encode msg.data), .closed])) := by
  refine ⟨?_, ?_, ?_⟩
  · intro ex hcr hco
    unfold send_message_to_scheduler_socket
    rw [hcfg]
    dsimp only
    rw [if_neg hne, if_neg (by simp [hex]), hcr]
    dsimp only
    rw [hco]
  · intro e hcr hco hsend
    unfold send_message_to_scheduler_socket
    rw [hcfg]
    dsimp only
    rw [if_neg hne, if_neg (by simp [hex]), hcr]
    dsimp only
    rw [hco]
    dsimp only
    rw [hsend]
  · intro e n hcr hco hsend hrecv
    unfold send_message_to_scheduler_socket
    rw [hcfg]
    dsimp only
    rw [if_neg hne, if_neg (by simp [hex]), hcr]
    dsimp only
    rw [hco]
    dsimp only
    rw [hsend]
    dsimp only
    rw [hrecv]

/-- C1 witness: the connect-failure case at a concrete environment. -/
theorem claim_C1_amended_witness :
    send_message_to_scheduler_socket envConnFail "ping" =
      (Except.ok (.pystr ("Exception while connecting to BTU Scheduler socket: " ++
        "[Errno 111] Connection refused")), [.created]) :=
  (claim_C1_amended envConnFail "ping" "/tmp/btu-scheduler.sock" rfl (by decide) rfl).1
    "[Errno 111] Connection refused" rfl rfl

/-- Shared shape lemma: whenever configuration, path check, socket
creation and connect all succeed, the client sends exactly the UTF-8
bytes of its message string and closes, whatever `send`/`recv` return. -/
theorem client_trace_shape (env : SocketEnv) (msg p : String)
    (hcfg : env.config_socket_path = some p) (hne : p ≠ "") (hex : env.path_exists = true)
    (hcr : env.create_ok = none) (hco : env.connect_ok = none) :
    ∃ res, send_message_to_scheduler_socket env msg =
      (res, [.created, .connected, .sentData (utf8Encode msg.data), .closed]) := by
  unfold send_message_to_scheduler_socket
  rw [hcfg]
  dsimp only
  rw [if_neg hne, if_neg (by simp [hex]), hcr]
  dsimp only
  rw [hco]
  dsimp only
  rcases hs : env.send_result with e2 | n2
  · exact ⟨_, rfl⟩
  · dsimp only
    rcases hr : env.recv_result with e3 | bs
    · exact ⟨_, rfl⟩
    · dsimp only
      by_cases hbs : bs = []
      · rw [if_pos hbs]
        exact ⟨_, rfl⟩
      · rw [if_neg hbs]
        rcases hdec : utf8Decode bs with _ | cs
        · exact ⟨_, rfl⟩
        · exact ⟨_, rfl⟩

/-- The bytes `send_ping` actually writes: the UTF-8 encoding of
`json.dumps` applied to the request dict. -/
def pingBytes : List Nat :=
  utf8Encode (dumpVal true (.obj [("request_type", .str "ping"), ("request_content", .null)]))

/-- The frame `_create_message` would build around `pingBytes`. -/
def pingFrame : List Nat := (create_message pingBytes "text/json" "utf-8").getD []

set_option maxRecDepth 1000000 in
/-- C2 counterexample: the blocking client writes the bare UTF-8 JSON
bytes, not the Frame-Codec encoding (2-byte prefix + metadata header +
payload) of them: the sent bytes differ from the frame. -/
theorem claim_C2_counterexample :
    (send_ping envHappy).2 = [.created, .connected, .sentData pingBytes, .closed] ∧
    create_message pingBytes "text/json" "utf-8" = some pingFrame ∧
    pingBytes ≠ pingFrame := by
  refine ⟨rfl, rfl, by decide⟩

/-- C2 (amended): for every request, the bytes the blocking client writes
are exactly the UTF-8 encoding of the `json.dumps` serialization of the
request dict — no 2-byte length prefix and no metadata header are
prepended — and all of those bytes are passed to one `send` call. -/
theorem claim_C2_amended (env : SocketEnv) (p : String) (rt : RequestType) (content : Json)
    (hcfg : env.config_socket_path = some p) (hne : p ≠ "") (hex : env.path_exists = true)
    (hcr : env.create_ok = none) (hco : env.connect_ok = none) :
    ∃ res, send_message env rt content =
      (res, [.created, .connected,
        .sentData (utf8Encode (dumpVal true
          (.obj [("request_type", .str rt.pyName), ("request_content", content)]))),
        .closed]) := by
  obtain ⟨res, h⟩ := client_trace_shape env
    (String.mk (dumpVal true
      (.obj [("request_type", .str rt.pyName), ("request_content", content)])))
    p hcfg hne hex hcr hco
  exact ⟨res, h⟩

set_option maxRecDepth 1000000 in
/-- C2 witness: the ping request at a concrete happy environment. -/
theorem claim_C2_amended_witness :
    ∃ res, send_message envHappy .ping .null =
      (res, [.created, .connected,
        .sentData (utf8Encode (dumpVal true
          (.obj [("request_type", .str RequestType.ping.pyName), ("request_content", .null)]))),
        .closed]) :=
  claim_C2_amended envHappy "/tmp/btu-scheduler.sock" .ping .null rfl (by decide) rfl rfl rfl

set_option maxRecDepth 1000000 in
/-- C7 counterexample: the serialized ping payload is not the compact
camelCase object the claim states — the actual keys are `request_type`
and `request_content` and `json.dumps` uses `", "`/`": "` separators. -/
theorem claim_C7_counterexample :
    SockEvent.sentData pingBytes ∈ (send_ping envHappy).2 ∧
    pingBytes ≠ utf8Encode "\x7b\"requestType\":\"ping\",\"requestContent\":null\x7d".data := by
  refine ⟨?_, by decide⟩
  have h : (send_ping envHappy).2 = [.created, .connected, .sentData pingBytes, .closed] := rfl
  rw [h]
  simp

set_option maxRecDepth 1000000 in
/-- C7 (amended): when the client sends a ping request, the serialized
payload is exactly the JSON object
`\x7b"request_type": "ping", "request_content": null\x7d`: the key
`request_type` holds the request-type name and the key `request_content`
holds the (null) content. -/
theorem claim_C7_amended (env : SocketEnv) (p : String)
    (hcfg : env.config_socket_path = some p) (hne : p ≠ "") (hex : env.path_exists = true)
    (hcr : env.create_ok = none) (hco : env.connect_ok = none) :
    ∃ res, send_ping env = (res, [.created, .connected,
      .sentData (utf8Encode "\x7b\"request_type\": \"ping\", \"request_content\": null\x7d".data),
      .closed]) := by
  obtain ⟨res, h⟩ := client_trace_shape env
    (String.mk (dumpVal true
      (.obj [("request_type", .str "ping"), ("request_content", .null)])))
    p hcfg hne hex hcr hco
  refine ⟨res, ?_⟩
  have hd : (dumpVal true (.obj [("request_type", .str "ping"), ("request_content", .null)])) =
      "\x7b\"request_type\": \"ping\", \"request_content\": null\x7d".data := by decide
  rw [← hd]
  exact h

set_option maxRecDepth 1000000 in
/-- C7 witness: the amended payload at a concrete happy environment. -/
theorem claim_C7_amended_witness :
    ∃ res, send_ping envHappy = (res, [.created, .connected,
      .sentData (utf8Encode "\x7b\"request_type\": \"ping\", \"request_content\": null\x7d".data),
      .closed]) :=
  claim_C7_amended envHappy "/tmp/btu-scheduler.sock" rfl (by decide) rfl rfl rfl

/-- C8: when the configured socket path does not exist on disk, the
client raises a `FileNotFoundError` carrying a descriptive string and
performs no socket operation at all (the event trace is empty: no socket
is opened, no connect is attempted). -/
theorem claim_C8_no_connect (env : SocketEnv) (p msg : String)
    (hcfg : env.config_socket_path = some p) (hne : p ≠ "") (hex : env.path_exists = false) :
    send_message_to_scheduler_socket env msg =
      (Except.error (.fileNotFound ("Path to socket file does not exists: " ++ p)), []) := by
  unfold send_message_to_scheduler_socket
  rw [hcfg]
  dsimp only
  rw [if_neg hne, if_pos hex]

/-- C8 witness: the missing-path environment. -/
theorem claim_C8_no_connect_witness :
    send_message_to_scheduler_socket envNoFile "ping" =
      (Except.error (.fileNotFound ("Path to socket file does not exists: " ++
        "/tmp/missing.sock")), []) :=
  claim_C8_no_connect envNoFile "/tmp/missing.sock" "ping" rfl (by decide) rfl

/-- A `Message` with its request queued and three bytes left to send. -/
def c9state : PyMessage :=
  { recv_buffer := [], send_buffer := [7, 8, 9], request_queued := true,
    jsonheader_len := none, jsonheader := none, response := none,
    selector_mode := .w, unregistered := false, sock_closed := false,
    request := dummyReq }

/-- C9 counterexample: after `write()` fully drains the send buffer the
connection is neither closed nor unregistered — the selector is merely
switched to read events, refuting the "closed and unregistered" part. -/
theorem claim_C9_counterexample :
    ∃ m2, msg_write c9state (some 3) = Except.ok m2 ∧ m2.send_buffer = [] ∧
      m2.sock_closed = false ∧ m2.unregistered = false ∧ m2.selector_mode = .r :=
  ⟨_, rfl, rfl, rfl, rfl, rfl⟩

/-- C9 (amended): on a write-readiness event with the request already
queued, `write()` drops from the send buffer exactly the bytes the
socket accepted, and when the buffer is fully drained it switches the
selector to read events only — the socket is not closed and the
connection is not unregistered. -/
theorem claim_C9_amended (m : PyMessage) (n : Nat) (hq : m.request_queued = true) :
    ∃ m2, msg_write m (some n) = Except.ok m2 ∧
      m2.send_buffer = m.send_buffer.drop n ∧
      m2.sock_closed = m.sock_closed ∧ m2.unregistered = m.unregistered ∧
      (m2.send_buffer = [] → m2.selector_mode = .r) := by
  obtain ⟨rb, sb, rq, jl, jh, resp, sm, unr, sc, req⟩ := m
  dsimp only at hq ⊢
  subst hq
  unfold msg_write msg_write_once
  dsimp only
  by_cases hb : sb = []
  · subst hb
    rw [if_pos rfl]
    dsimp only
    exact ⟨_, rfl, by rw [List.drop_nil]; rfl, rfl, rfl, fun _ => rfl⟩
  · rw [if_neg hb]
    dsimp only
    rcases hd : sb.drop n with _ | ⟨b, bs⟩
    · dsimp only
      exact ⟨_, rfl, rfl, rfl, rfl, fun _ => rfl⟩
    · dsimp only
      exact ⟨_, rfl, rfl, rfl, rfl, fun h => nomatch h⟩

/-- C9 witness: the amended behaviour at the concrete drained state. -/
theorem claim_C9_amended_witness :
    ∃ m2, msg_write c9state (some 3) = Except.ok m2 ∧
      m2.send_buffer = c9state.send_buffer.drop 3 ∧
      m2.sock_closed = c9state.sock_closed ∧ m2.unregistered = c9state.unregistered ∧
      (m2.send_buffer = [] → m2.selector_mode = .r) :=
  claim_C9_amended c9state 3 rfl

/-- C10: after a successful connect and send, a zero-byte `recv` makes
the client return the empty bytes object — not `None` and not a decoded
string — and UTF-8 decoding of the response is applied only when at
least one byte was received. -/
theorem claim_C10_empty_recv (env : SocketEnv) (p msg : String) (n : Nat)
    (hcfg : env.config_socket_path = some p) (hne : p ≠ "") (hex : env.path_exists = true)
    (hcr : env.create_ok = none) (hco : env.connect_ok = none)
    (hsend : env.send_result = .ok n) :
    (env.recv_result = .ok [] →
      (send_message_to_scheduler_socket env msg).1 = Except.ok (.pybytes [])) ∧
    (∀ bs, env.recv_result = .ok bs → bs ≠ [] →
      (send_message_to_scheduler_socket env msg).1 =
        (match utf8Decode bs with
         | some cs => Except.ok (.pystr (String.mk cs))
         | none => Except.error .unicodeDecodeError)) := by
  unfold send_message_to_scheduler_socket
  rw [hcfg]
  dsimp only
  rw [if_neg hne, if_neg (by simp [hex]), hcr]
  dsimp only
  rw [hco]
  dsimp only
  rw [hsend]
  dsimp only
  constructor
  · intro hrecv
    rw [hrecv]
    dsimp only
    rw [if_pos rfl]
  · intro bs hrecv hne2
    rw [hrecv]
    dsimp only
    rw [if_neg hne2]
    rcases hdec : utf8Decode bs with _ | cs
    · rfl
    · rfl

/-- C10 witness: the zero-byte-receive environment. -/
theorem claim_C10_empty_recv_witness :
    (send_message_to_scheduler_socket envRecvEmpty "ping").1 = Except.ok (.pybytes []) :=
  (claim_C10_empty_recv envRecvEmpty "/tmp/btu-scheduler.sock" "ping" 4
    rfl (by decide) rfl rfl rfl rfl).1 rfl

end BTUVerify
